import Mathlib

/-!
Shallow embedding of the firmware/NVSRAM upgrade module
(`plugins/modules/na_santricity_firmware.py`) of the netappeseries/santricity
collection, together with proofs about the claims of its specification.

The module's byte-string manipulations are modelled over ASCII `String`s;
a file is the list of its lines (as produced by `readline`, trailing newline
omitted).  Python exceptions are modelled explicitly: `PyErr.exc` is a
catchable exception (`except Exception`), `PyErr.fail k` is `module.fail_json`
(a `SystemExit`, which is *not* caught by `except Exception`).
-/

deriving instance DecidableEq for Except

namespace Santricity

abbrev Str := String

/-- Python bytes/str lexicographic `<` (byte-value order, modelled on ASCII). -/
def byteLt : List Char → List Char → Bool
  | [], [] => false
  | [], _ :: _ => true
  | _ :: _, [] => false
  | a :: as, b :: bs =>
    decide (a.toNat < b.toNat) || (a.toNat == b.toNat && byteLt as bs)

def pyLt (s t : Str) : Bool := byteLt s.data t.data

/-- Python `<=` on byte strings. -/
def pyLe (s t : Str) : Bool := pyLt s t || s == t

/-- Python substring membership `needle in hay` on lists of bytes. -/
def pyInList : List Char → List Char → Bool
  | needle, [] => needle.isPrefixOf ([] : List Char)
  | needle, h :: t => needle.isPrefixOf (h :: t) || pyInList needle t

/-- Python `needle in hay` for byte strings. -/
def pyContains (hay needle : Str) : Bool := pyInList needle.data hay.data

/-- Python `bytes.lower()` (ASCII). -/
def pyLower (s : Str) : Str := String.mk (s.data.map Char.toLower)

/-- Python `bytes.strip(b"\n")`: remove leading and trailing newline bytes. -/
def stripNl (s : Str) : Str :=
  String.mk (((s.data.dropWhile (· == '\n')).reverse.dropWhile (· == '\n')).reverse)

/-- Split a byte list at every byte satisfying `p`, keeping empty pieces
(the result is never empty). -/
def splitOnPred (p : Char → Bool) : List Char → List (List Char)
  | [] => [[]]
  | x :: xs =>
    if p x then [] :: splitOnPred p xs
    else
      match splitOnPred p xs with
      | [] => [[x]]
      | g :: gs => (x :: g) :: gs

/-- Python `bytes.split()` (split on whitespace runs, dropping empty pieces). -/
def pySplitWs (s : Str) : List Str :=
  ((splitOnPred Char.isWhitespace s.data).filter (fun p => p ≠ [])).map String.mk

/-- Python `bytes.split(sep)` for a one-byte separator `c`.
`splitOnChar c l` is never empty, and `"".split(c) = [""]` as in Python. -/
def splitOnChar (c : Char) : List Char → List (List Char) :=
  splitOnPred (fun x => x == c)

def pySplit (c : Char) (s : Str) : List Str := (splitOnChar c s.data).map String.mk

/-- Python slice `s[n:]`. -/
def pyDrop (s : Str) (n : Nat) : Str := String.mk (s.data.drop n)

/-- A firmware or NVSRAM file: its basename and the list of its lines. -/
structure FwFile where
  name : Str
  lines : List Str
  deriving DecidableEq, Repr

/-- The first 16 bytes of the file (`fh.read(16)`). -/
def fileHead16 (f : FwFile) : Str :=
  String.mk ((String.intercalate "\n" f.lines).data.take 16)

/-- The `fail_json` sites of the module, by call site. -/
inductive FailKind
  | retrieveUpgradeStatus | alreadyInProgress
  | invalidNvsramFile | incompatibleNvsramFile | nvsramCompatError
  | invalidBundleFile | incompatibleBundleFile | bundleCompatError | downgradeEmbedded
  | invalidFirmwareFile | malformedFirmware | malformedNvsram
  | fwInfoError | nvsramInfoError | downgradeProxy
  | cfwFilesError | uploadFirmwareFailed | uploadNvsramFailed
  | nvsramCompatTimeout | nvsramIncompatible | nvsramCompatFailed
  | fwCompatTimeout | fwIncompatible | fwCompatFailed
  | webServicesTimeout | upgradeFailedWithError | upgradeFailedNoTimestamp
  | embVerifyFailed
  | proxyFwActivateFailed | proxyNvsramActivateFailed
  deriving DecidableEq, Repr

/-- A Python error: a catchable exception, or `fail_json` (uncatchable). -/
inductive PyErr
  | exc
  | fail (k : FailKind)
  deriving DecidableEq, Repr

/-- `NetAppESeriesFirmware.is_firmware_bundled`: classify by the first 16
bytes; `b"firmware"` means singleton, `b"combined_content"` means bundle,
anything else is `fail_json`.  Opening a `None` path raises `TypeError`. -/
def is_firmware_bundled (fw : Option FwFile) : Except PyErr Bool :=
  match fw with
  | none => .error .exc
  | some f =>
    let signature := pyLower (fileHead16 f)
    if pyContains signature "firmware" then .ok false
    else if pyContains signature "combined_content" then .ok true
    else .error (.fail .invalidFirmwareFile)

/-- `key, value = item.split(b"|")`: exactly two parts, else `ValueError`. -/
def splitBar2 (item : Str) : Option (Str × Str) :=
  match pySplit '|' item with
  | [k, v] => some (k, v)
  | _ => none

/-- The `for item in line[25:].split(b','):` loop of `firmware_version`:
the last item keyed `VERSION` wins; a non-pair item raises `ValueError`. -/
def bundleVersionOfItems : List Str → Option Str → Except PyErr (Option Str)
  | [], acc => .ok acc
  | it :: rest, acc =>
    match splitBar2 it with
    | none => .error .exc
    | some (k, v) =>
      bundleVersionOfItems rest (if k == "VERSION" then some (stripNl v) else acc)

/-- The line scan of `NetAppESeriesFirmware.firmware_version`.  Returns the
cache value after the loop; `none` end-of-file is the `while ... else`
`fail_json`.  Note a marker line without a `VERSION` key leaves the cache
`None` (the Python function then returns `None`). -/
def firmware_version_lines (bundled : Bool) : List Str → Except PyErr (Option Str)
  | [] => .error (.fail .malformedFirmware)
  | l :: rest =>
    if bundled then
      if pyContains l "displayableAttributeList=" then
        bundleVersionOfItems (pySplit ',' (pyDrop l 25)) none
      else firmware_version_lines bundled rest
    else
      if pyContains l "Version:" then
        match (pySplitWs l).getLast? with
        | none => .error .exc
        | some tok => .ok (some (stripNl tok))
      else firmware_version_lines bundled rest

/-- `NetAppESeriesFirmware.firmware_version` (cache modelled as memoisation
of a pure function of the file). -/
def firmware_version (fw : Option FwFile) : Except PyErr (Option Str) :=
  match fw with
  | none => .error .exc
  | some f =>
    if f.lines = [] then .error (.fail .malformedFirmware)
    else
      match is_firmware_bundled fw with
      | .error e => .error e
      | .ok b => firmware_version_lines b f.lines

/-- The line scan of `NetAppESeriesFirmware.nvsram_version`: the version is
`line.split(b'"')[-2]`, an `IndexError` if fewer than two fields. -/
def nvsram_version_lines : List Str → Except PyErr Str
  | [] => .error (.fail .malformedNvsram)
  | l :: rest =>
    if pyContains l ".NVSRAM Configuration Number" then
      let fields := pySplit '"' l
      if h : 2 ≤ fields.length then
        .ok (fields.get ⟨fields.length - 2, by omega⟩)
      else .error .exc
    else nvsram_version_lines rest

/-- `NetAppESeriesFirmware.nvsram_version`. -/
def nvsram_version (nv : Option FwFile) : Except PyErr Str :=
  match nv with
  | none => .error .exc
  | some f => nvsram_version_lines f.lines

/-! ### Mutable run state and MEL event polling -/

/-- The mutable fields of the `NetAppESeriesFirmware` object (the run
parameters are immutable and live in `Env`). -/
structure St where
  firmware_upgrade_required : Bool := false
  nvsram_upgrade_required : Bool := false
  upgrade_in_progress : Bool := false
  start_mel_event : Int := -1
  fw_act_count : Nat := 1
  nv_dl_count : Nat := 1
  proxy_wait_count : Nat := 1
  deriving DecidableEq, Repr

/-- One MEL event as returned by the `mel-events` endpoint.  A `none` field
models a missing/malformed key, whose access raises a catchable exception. -/
structure MelEvent where
  label : Option Str
  seq : Option Int
  desc : Option Str
  deriving DecidableEq, Repr

/-- The shared shape of the `for event in events:` loops of
`is_firmware_activation_started` and `is_nvsram_download_completed`: both
extract the controller label, advance the cursor
(`self.start_mel_event = int(event["sequenceNumber"]) + 1`), then dispatch
on the description, returning `True` early when `target` is seen (the
count-widening `bump` after the loop is then skipped; the remaining
descriptions are only logged).  An `.error` result is a swallowed
exception, carrying the partially updated state and the sequence numbers
consumed so far. -/
def melScan (target : Str) (bump : St → St) (st : St) :
    List MelEvent → Except (St × List Int) (St × Bool × List Int)
  | [] => .ok (bump st, false, [])
  | e :: rest =>
    match e.label with
    | none => .error (st, [])
    | some _ =>
      match e.seq with
      | none => .error (st, [])
      | some n =>
        let st' := { st with start_mel_event := n + 1 }
        match e.desc with
        | none => .error (st', [n])
        | some d =>
          if d == target then .ok (st', true, [n])
          else
            match melScan target bump st' rest with
            | .ok (st'', b, ns) => .ok (st'', b, n :: ns)
            | .error (st'', ns) => .error (st'', n :: ns)

/-- The event loop of `is_firmware_activation_started`. -/
def fwActivationEvents (st : St) (evs : List MelEvent) :
    Except (St × List Int) (St × Bool × List Int) :=
  melScan "Activate controller firmware started"
    (fun s => if s.fw_act_count == 1 then { s with fw_act_count := 100 } else s) st evs

/-- `NetAppESeriesFirmware.is_firmware_activation_started`.  The response is
`none` when the `mel-events` request raised; every exception is swallowed
(`except Exception: pass`) and the function returns `False`.  The returned
list records the consumed sequence numbers (instrumentation only). -/
def is_firmware_activation_started (st : St) (resp : Option (List MelEvent)) :
    St × Bool × List Int :=
  match resp with
  | none => (st, false, [])
  | some events =>
    match fwActivationEvents st events with
    | .ok r => r
    | .error (st', ns) => (st', false, ns)

/-- The event loop of `is_nvsram_download_completed` (single description
check, early return on `Controller NVSRAM download completed`). -/
def nvsramDownloadEvents (st : St) (evs : List MelEvent) :
    Except (St × List Int) (St × Bool × List Int) :=
  melScan "Controller NVSRAM download completed"
    (fun s => if s.nv_dl_count == 1 then { s with nv_dl_count := 100 } else s) st evs

/-- `NetAppESeriesFirmware.is_nvsram_download_completed`. -/
def is_nvsram_download_completed (st : St) (resp : Option (List MelEvent)) :
    St × Bool × List Int :=
  match resp with
  | none => (st, false, [])
  | some events =>
    match nvsramDownloadEvents st events with
    | .ok r => r
    | .error (st', ns) => (st', false, ns)

/-- The MEL loop of `proxy_wait_for_upgrade` (logs the milestones, no early
return, its own count widening). -/
def proxyWaitEvents (st : St) : List MelEvent → Except St St
  | [] =>
    .ok (if st.proxy_wait_count == 1 then { st with proxy_wait_count := 100 } else st)
  | e :: rest =>
    match e.label with
    | none => .error st
    | some _ =>
      match e.seq with
      | none => .error st
      | some n =>
        let st' := { st with start_mel_event := n + 1 }
        match e.desc with
        | none => .error st'
        | some _ => proxyWaitEvents st' rest

/-- The MEL half of one `proxy_wait_for_upgrade` iteration; all exceptions
swallowed. -/
def proxyWaitMel (st : St) (resp : Option (List MelEvent)) : St :=
  match resp with
  | none => st
  | some events =>
    match proxyWaitEvents st events with
    | .ok st' => st'
    | .error st' => st'

/-! ### Server responses, call trace and the environment -/

/-- The management-API call sites of the module, by endpoint. -/
inductive Call
  | getCfwUpgradeStatus    -- GET  storage-systems/{id}/cfw-upgrade
  | embNvsramCompatCheck   -- POST nvsram-compatibility-check
  | embBundleCompatCheck   -- POST bundle-compatibility-check
  | embFirmwareUpload      -- POST firmware/embedded-firmware?staged=false
  | embNvsramUpload        -- POST firmware/embedded-firmware/{id}/nvsram
  | melEvents              -- GET  mel-events
  | saDataQuery            -- GET  graph/xpath-filter?query=/sa/saData
  | bundleDisplayQuery     -- GET  codeVersions[codeModule='bundleDisplay']
  | fwVersionQuery         -- GET  /sa/saData/fwVersion
  | nvsramVersionQuery     -- GET  /sa/saData/nvsramVersion
  | cfwFilesList           -- GET  firmware/cfw-files
  | proxyUpload            -- POST firmware/upload
  | compatCheckPost        -- POST firmware/compatibility-check
  | compatCheckPoll        -- GET  firmware/compatibility-check?requestId=...
  | proxyFwActivate        -- POST cfw-upgrade {cfwFile}
  | proxyNvsramActivate    -- POST cfw-upgrade {nvsramFile}
  deriving DecidableEq, Repr

/-- Calls that upload an artifact or trigger an activation. -/
def Call.isMutation : Call → Bool
  | .embFirmwareUpload => true
  | .embNvsramUpload => true
  | .proxyUpload => true
  | .proxyFwActivate => true
  | .proxyNvsramActivate => true
  | _ => false

/-- Calls that upload to or activate on the *controller* (a `proxyUpload`
only stages the file on the web-services proxy). -/
def Call.isControllerMutation : Call → Bool
  | .embFirmwareUpload => true
  | .embNvsramUpload => true
  | .proxyFwActivate => true
  | .proxyNvsramActivate => true
  | _ => false

/-- How a run stops short of `exit_json`: a `fail_json`, or (model artifact)
exhaustion of the fuel of the `while True` polling loop. -/
inductive RunStop
  | fail (k : FailKind)
  | diverge
  deriving DecidableEq, Repr

/-- Response of the embedded compatibility-check endpoints. -/
structure ModuleVersions where
  module : Str
  bundledVersion : Str
  onboardVersion : Str
  deriving DecidableEq, Repr

structure CompatResp where
  signatureTestingPassed : Bool
  fileCompatible : Bool
  versionContents : List ModuleVersions
  deriving DecidableEq, Repr

/-- One poll response of the proxy compatibility check.  `files := none`
models a malformed `results` payload (its access raises, and the iteration
is skipped). -/
structure CompatPollResp where
  checkRunning : Bool
  files : Option (List Str)
  deriving DecidableEq, Repr

/-- One attempt of a proxy compatibility check: `none` when the initial
POST raised (triggering the retry recursion), otherwise the sequence of
poll responses (`none` entries are raised poll requests). -/
abbrev CompatAttempt := Option (List (Option CompatPollResp))

/-- Response of `storage-systems/{id}/cfw-upgrade` during `proxy_wait_for_upgrade`.
`none` fields are missing keys (their access raises and is swallowed);
an empty `activationCompletionTime` is falsy. -/
structure CfwStatus where
  running : Option Bool
  activationCompletionTime : Option Str
  errorMessage : Option Str
  deriving DecidableEq, Repr

/-- One iteration's worth of server behaviour for `proxy_wait_for_upgrade`. -/
structure ProxyWaitStep where
  status : Option CfwStatus
  mel : Option (List MelEvent)
  deriving DecidableEq, Repr

/-- Response of the `/sa/saData` attribute query in `wait_for_web_services`.
`bundleDisplay := none` models a raising `bundleDisplay` extraction,
`nvsramVersion := none` a missing key. -/
structure SaResp where
  rc : Nat
  bundleDisplay : Option Str
  nvsramVersion : Option Str
  deriving DecidableEq, Repr

/-- The run parameters together with the behaviour of the management plane.
Each `Option` response field is `none` when the corresponding request
raises. -/
structure Env where
  nvsram : Option FwFile
  firmware : Option FwFile
  wait_for_completion : Bool
  ignore_mel_events : Bool
  check_mode : Bool
  isProxy : Bool
  upgradeRunning : Option Bool            -- cfw-upgrade status at run start
  nvsramCompat : Option CompatResp        -- embedded nvsram compatibility check
  bundleCompat : Option CompatResp        -- embedded bundle compatibility check
  currentBundleDisplay : Option Str       -- proxy bundleDisplay version query
  currentFwVersion : Option Str           -- proxy fwVersion query
  currentNvsramVersion : Option Str       -- proxy nvsramVersion query
  cfwFiles : Option (List Str)            -- filenames already on the proxy
  fwUploadOk : Bool                       -- POST firmware/upload (firmware)
  nvUploadOk : Bool                       -- POST firmware/upload (nvsram)
  fwCompatAttempts : List CompatAttempt
  nvCompatAttempts : List CompatAttempt
  fwActivateOk : Bool                     -- POST cfw-upgrade {cfwFile}
  nvActivateOk : Bool                     -- POST cfw-upgrade {nvsramFile}
  waitSteps1 : List ProxyWaitStep         -- proxy wait after firmware activation
  waitSteps2 : List ProxyWaitStep         -- proxy wait after nvsram activation
  fwUploadAlive : Nat                     -- poll ticks the firmware upload process lives
  nvUploadAlive : Nat
  fwMel : Nat → Option (List MelEvent)    -- mel-events responses while firmware uploads
  nvMel : Nat → Option (List MelEvent)
  saResponses : List (Option SaResp)      -- /sa/saData responses while rebooting

/-- `os.path.basename` results cached in `__init__`. -/
def Env.firmwareName (env : Env) : Str := (env.firmware.map FwFile.name).getD ""

def Env.nvsramName (env : Env) : Str := (env.nvsram.map FwFile.name).getD ""

/-! ### is_upgrade_in_progress -/

/-- `NetAppESeriesFirmware.is_upgrade_in_progress`: queried on the proxy
only; on the embedded topology it is `False` without any request.
`env.upgradeRunning = none` models a raising (or malformed) status request,
turned into a `fail_json`. -/
def is_upgrade_in_progress (env : Env) : List Call × Except RunStop Bool :=
  if env.isProxy then
    ([.getCfwUpgradeStatus],
      match env.upgradeRunning with
      | none => .error (.fail .retrieveUpgradeStatus)
      | some b => .ok b)
  else ([], .ok false)

/-! ### Embedded compatibility checks -/

/-- `NetAppESeriesFirmware.embedded_check_nvsram_compatibility` (the
`module_info` bookkeeping, which is never read back, is not modelled). -/
def embedded_check_nvsram_compatibility (st : St) (resp : Option CompatResp) :
    Except RunStop St :=
  match resp with
  | none => .error (.fail .nvsramCompatError)
  | some c =>
    if !c.signatureTestingPassed then .error (.fail .invalidNvsramFile)
    else if !c.fileCompatible then .error (.fail .incompatibleNvsramFile)
    else .ok { st with nvsram_upgrade_required :=
      st.nvsram_upgrade_required ||
        c.versionContents.any (fun m => m.bundledVersion != m.onboardVersion) }

/-- One module of the `embedded_check_bundle_compatibility` loop: compare at
the common truncation, then reject downgrades on the first two dotted
segments (Python string comparison); list indexing may raise `IndexError`. -/
def checkBundleModule (m : ModuleVersions) : Except PyErr Bool :=
  let bm := pySplit '.' m.bundledVersion
  let om := pySplit '.' m.onboardVersion
  let n := min bm.length om.length
  if bm.take n != om.take n then
    -- bundle_version = bm[:2], onboard_version = om[:2]; [0] always exists
    -- (split returns a nonempty list), [1] raises IndexError when absent
    match bm, om with
    | b0 :: bs, o0 :: os =>
      if pyLt b0 o0 then .error (.fail .downgradeEmbedded)
      else if b0 == o0 then
        match bs, os with
        | b1 :: _, o1 :: _ =>
          if pyLt b1 o1 then .error (.fail .downgradeEmbedded) else .ok true
        | _, _ => .error .exc
      else .ok true
    | _, _ => .error .exc
  else .ok false

/-- The `for module in compatible["versionContents"]:` loop. -/
def checkBundleModules (st : St) : List ModuleVersions → Except PyErr St
  | [] => .ok st
  | m :: rest =>
    match checkBundleModule m with
    | .error e => .error e
    | .ok req =>
      checkBundleModules
        { st with firmware_upgrade_required := st.firmware_upgrade_required || req } rest

/-- `NetAppESeriesFirmware.embedded_check_bundle_compatibility`; any
catchable exception inside the `try` becomes the wrapping `fail_json`,
while the downgrade `fail_json` escapes `except Exception`. -/
def embedded_check_bundle_compatibility (st : St) (resp : Option CompatResp) :
    Except RunStop St :=
  match resp with
  | none => .error (.fail .bundleCompatError)
  | some c =>
    if !c.signatureTestingPassed then .error (.fail .invalidBundleFile)
    else if !c.fileCompatible then .error (.fail .incompatibleBundleFile)
    else
      match checkBundleModules st c.versionContents with
      | .ok st' => .ok st'
      | .error .exc => .error (.fail .bundleCompatError)
      | .error (.fail k) => .error (.fail k)

/-- The `if self.nvsram:` half of `embedded_check_compatibility`. -/
def embedded_check_nv_part (env : Env) (st : St) : List Call × Except RunStop St :=
  match env.nvsram with
  | none => ([], .ok st)
  | some _ =>
    ([.embNvsramCompatCheck], embedded_check_nvsram_compatibility st env.nvsramCompat)

/-- The `if self.firmware:` half of `embedded_check_compatibility`. -/
def embedded_check_fw_part (env : Env) (st : St) : List Call × Except RunStop St :=
  match env.firmware with
  | none => ([], .ok st)
  | some _ =>
    ([.embBundleCompatCheck], embedded_check_bundle_compatibility st env.bundleCompat)

/-- `NetAppESeriesFirmware.embedded_check_compatibility`. -/
def embedded_check_compatibility (env : Env) (st : St) : List Call × Except RunStop St :=
  match (embedded_check_nv_part env st).2 with
  | .error s => ((embedded_check_nv_part env st).1, .error s)
  | .ok st1 =>
    ((embedded_check_nv_part env st).1 ++ (embedded_check_fw_part env st1).1,
      (embedded_check_fw_part env st1).2)

/-! ### Proxy upgrade-required check and compatibility checks -/

/-- The firmware half of `proxy_check_upgrade_required`.  Catchable
exceptions inside the `try` become the wrapping `fail_json`; `fail_json`
itself (downgrade, invalid firmware file) escapes `except Exception`. -/
def proxy_check_fw_required_part (env : Env) (st : St) :
  List Call × Except RunStop St :=
  match env.firmware with
  | none => ([], .ok st)
  | some _ =>
    match is_firmware_bundled env.firmware with
    | .error .exc => ([], .error (.fail .fwInfoError))
    | .error (.fail k) => ([], .error (.fail k))
    | .ok bundled =>
      let call := if bundled then Call.bundleDisplayQuery else Call.fwVersionQuery
      let resp := if bundled then env.currentBundleDisplay else env.currentFwVersion
      match resp with
      | none => ([call], .error (.fail .fwInfoError))
      | some current =>
        match firmware_version env.firmware with
        | .error .exc => ([call], .error (.fail .fwInfoError))
        | .error (.fail k) => ([call], .error (.fail k))
        | .ok none =>
          -- current != None holds, then None.split raises AttributeError
          ([call], .error (.fail .fwInfoError))
        | .ok (some v) =>
          if current != v then
            let c2 := (pySplit '.' current).take 2
            let u2 := (pySplit '.' v).take 2
            match c2.get? 0, u2.get? 0 with
            | some c0, some u0 =>
              if pyLt c0 u0 then
                ([call], .ok { st with firmware_upgrade_required := true })
              else if c0 == u0 then
                match c2.get? 1 with
                | none => ([call], .error (.fail .fwInfoError))
                | some c1 =>
                  match u2.get? 1 with
                  | none => ([call], .error (.fail .fwInfoError))
                  | some u1 =>
                    if pyLe c1 u1 then
                      ([call], .ok { st with firmware_upgrade_required := true })
                    else ([call], .error (.fail .downgradeProxy))
              else ([call], .error (.fail .downgradeProxy))
            | _, _ => ([call], .error (.fail .fwInfoError))
          else ([call], .ok st)

/-- `NetAppESeriesFirmware.proxy_check_upgrade_required`: the firmware
half composed with the nvsram half. -/
def proxy_check_upgrade_required (env : Env) (st : St) : List Call × Except RunStop St :=
  match (proxy_check_fw_required_part env st).2 with
  | .error s => ((proxy_check_fw_required_part env st).1, .error s)
  | .ok st1 =>
    match env.nvsram with
    | none => ((proxy_check_fw_required_part env st).1, .ok st1)
    | some _ =>
      match env.currentNvsramVersion with
      | none => ((proxy_check_fw_required_part env st).1 ++ [.nvsramVersionQuery],
          .error (.fail .nvsramInfoError))
      | some currentNv =>
        match nvsram_version env.nvsram with
        | .error .exc => ((proxy_check_fw_required_part env st).1 ++ [.nvsramVersionQuery],
            .error (.fail .nvsramInfoError))
        | .error (.fail k) => ((proxy_check_fw_required_part env st).1 ++ [.nvsramVersionQuery],
            .error (.fail k))
        | .ok nvv =>
          ((proxy_check_fw_required_part env st).1 ++ [.nvsramVersionQuery],
            .ok (if currentNv != nvv
              then { st1 with nvsram_upgrade_required := true } else st1))

/-- The `for count in range(int(60 / 5)):` polling loop of
`proxy_check_firmware_compatibility`; `for ... else` is the timeout
`fail_json`, raising iterations are skipped by `continue`. -/
def fwCompatLoop (name : Str) : Nat → List (Option CompatPollResp) →
    List Call × Except RunStop Unit
  | 0, _ => ([], .error (.fail .fwCompatTimeout))
  | fuel + 1, polls =>
    match polls with
    | [] =>
      (Call.compatCheckPoll :: (fwCompatLoop name fuel []).1, (fwCompatLoop name fuel []).2)
    | none :: rest =>
      (Call.compatCheckPoll :: (fwCompatLoop name fuel rest).1, (fwCompatLoop name fuel rest).2)
    | some r :: rest =>
      if !r.checkRunning then
        match r.files with
        | none =>
          (Call.compatCheckPoll :: (fwCompatLoop name fuel rest).1,
            (fwCompatLoop name fuel rest).2)
        | some fs =>
          if fs.contains name then ([.compatCheckPoll], .ok ())
          else ([.compatCheckPoll], .error (.fail .fwIncompatible))
      else
        (Call.compatCheckPoll :: (fwCompatLoop name fuel rest).1,
          (fwCompatLoop name fuel rest).2)

/-- The retry-by-recursion of `proxy_check_firmware_compatibility`
(`retries=10`): a raising initial POST sleeps and recurses; with no retries
left it is a permanent `fail_json`. -/
def proxy_check_firmware_compatibility (name : Str) (attempts : List CompatAttempt) :
    Nat → List Call × Except RunStop Unit
  | 0 =>
    match attempts with
    | some polls :: _ =>
      (Call.compatCheckPost :: (fwCompatLoop name 12 polls).1, (fwCompatLoop name 12 polls).2)
    | _ => ([.compatCheckPost], .error (.fail .fwCompatFailed))
  | retries + 1 =>
    match attempts with
    | some polls :: _ =>
      (Call.compatCheckPost :: (fwCompatLoop name 12 polls).1, (fwCompatLoop name 12 polls).2)
    | _ :: rest =>
      (Call.compatCheckPost :: (proxy_check_firmware_compatibility name rest retries).1,
        (proxy_check_firmware_compatibility name rest retries).2)
    | [] =>
      (Call.compatCheckPost :: (proxy_check_firmware_compatibility name [] retries).1,
        (proxy_check_firmware_compatibility name [] retries).2)

/-- The polling loop of `proxy_check_nvsram_compatibility` (same shape, its
own endpoints and messages; the `sleep` sits outside the inner `try`, which
does not change the modelled behaviour). -/
def nvCompatLoop (name : Str) : Nat → List (Option CompatPollResp) →
    List Call × Except RunStop Unit
  | 0, _ => ([], .error (.fail .nvsramCompatTimeout))
  | fuel + 1, polls =>
    match polls with
    | [] =>
      (Call.compatCheckPoll :: (nvCompatLoop name fuel []).1, (nvCompatLoop name fuel []).2)
    | none :: rest =>
      (Call.compatCheckPoll :: (nvCompatLoop name fuel rest).1, (nvCompatLoop name fuel rest).2)
    | some r :: rest =>
      if !r.checkRunning then
        match r.files with
        | none =>
          (Call.compatCheckPoll :: (nvCompatLoop name fuel rest).1,
            (nvCompatLoop name fuel rest).2)
        | some fs =>
          if fs.contains name then ([.compatCheckPoll], .ok ())
          else ([.compatCheckPoll], .error (.fail .nvsramIncompatible))
      else
        (Call.compatCheckPoll :: (nvCompatLoop name fuel rest).1,
          (nvCompatLoop name fuel rest).2)

/-- `NetAppESeriesFirmware.proxy_check_nvsram_compatibility` with its retry
recursion (`retries=10`). -/
def proxy_check_nvsram_compatibility (name : Str) (attempts : List CompatAttempt) :
    Nat → List Call × Except RunStop Unit
  | 0 =>
    match attempts with
    | some polls :: _ =>
      (Call.compatCheckPost :: (nvCompatLoop name 12 polls).1, (nvCompatLoop name 12 polls).2)
    | _ => ([.compatCheckPost], .error (.fail .nvsramCompatFailed))
  | retries + 1 =>
    match attempts with
    | some polls :: _ =>
      (Call.compatCheckPost :: (nvCompatLoop name 12 polls).1, (nvCompatLoop name 12 polls).2)
    | _ :: rest =>
      (Call.compatCheckPost :: (proxy_check_nvsram_compatibility name rest retries).1,
        (proxy_check_nvsram_compatibility name rest retries).2)
    | [] =>
      (Call.compatCheckPost :: (proxy_check_nvsram_compatibility name [] retries).1,
        (proxy_check_nvsram_compatibility name [] retries).2)

/-- The `if self.firmware:` block of `proxy_upload_and_check_compatibility`:
upload the firmware to the proxy only when its basename is absent from the
`cfw-files` listing, then run the async compatibility check. -/
def proxy_upload_fw_part (env : Env) (files : List Str) : List Call × Except RunStop Unit :=
  match env.firmware with
  | none => ([], .ok ())
  | some f =>
    if files.contains f.name then
      ((proxy_check_firmware_compatibility f.name env.fwCompatAttempts 10).1,
        (proxy_check_firmware_compatibility f.name env.fwCompatAttempts 10).2)
    else if env.fwUploadOk then
      (Call.proxyUpload ::
          (proxy_check_firmware_compatibility f.name env.fwCompatAttempts 10).1,
        (proxy_check_firmware_compatibility f.name env.fwCompatAttempts 10).2)
    else ([.proxyUpload], .error (.fail .uploadFirmwareFailed))

/-- The `if self.nvsram:` block of `proxy_upload_and_check_compatibility`. -/
def proxy_upload_nv_part (env : Env) (files : List Str) : List Call × Except RunStop Unit :=
  match env.nvsram with
  | none => ([], .ok ())
  | some f =>
    if files.contains f.name then
      ((proxy_check_nvsram_compatibility f.name env.nvCompatAttempts 10).1,
        (proxy_check_nvsram_compatibility f.name env.nvCompatAttempts 10).2)
    else if env.nvUploadOk then
      (Call.proxyUpload ::
          (proxy_check_nvsram_compatibility f.name env.nvCompatAttempts 10).1,
        (proxy_check_nvsram_compatibility f.name env.nvCompatAttempts 10).2)
    else ([.proxyUpload], .error (.fail .uploadNvsramFailed))

/-- `NetAppESeriesFirmware.proxy_upload_and_check_compatibility`: list the
files already on the proxy, upload each supplied artifact only when its
basename is absent from the listing, then run the async compatibility
check.  The function does not modify the object state. -/
def proxy_upload_and_check_compatibility (env : Env) : List Call × Except RunStop Unit :=
  match env.cfwFiles with
  | none => ([.cfwFilesList], .error (.fail .cfwFilesError))
  | some files =>
    match (proxy_upload_fw_part env files).2 with
    | .error s => (.cfwFilesList :: (proxy_upload_fw_part env files).1, .error s)
    | .ok _ =>
      (.cfwFilesList :: ((proxy_upload_fw_part env files).1 ++
          (proxy_upload_nv_part env files).1),
        (proxy_upload_nv_part env files).2)

/-! ### Upgrade phase -/

/-- `NetAppESeriesFirmware.proxy_wait_for_upgrade`: a `while True` loop.
Per iteration, the status query (whose exceptions, including missing keys,
are swallowed), then the MEL poll (exceptions swallowed).  The loop breaks
successfully only on `running == False` with a truthy completion timestamp
(clearing `upgrade_in_progress`); `running == False` otherwise is a fatal
`fail_json`.  The step list is the loop's fuel; exhausting it is the model's
`diverge`. -/
def proxy_wait_for_upgrade (st : St) : List ProxyWaitStep → List Call × Except RunStop St
  | [] => ([], .error .diverge)
  | step :: rest =>
    let statusRes : Option (Except RunStop St) :=
      match step.status with
      | none => none
      | some s =>
        match s.running with
        | none => none
        | some true => none
        | some false =>
          match s.activationCompletionTime with
          | none => none          -- KeyError, swallowed
          | some t =>
            if t != "" then some (.ok { st with upgrade_in_progress := false })
            else
              match s.errorMessage with
              | some _ => some (.error (.fail .upgradeFailedWithError))
              | none => some (.error (.fail .upgradeFailedNoTimestamp))
    match statusRes with
    | some (.ok st') => ([.getCfwUpgradeStatus], .ok st')   -- break
    | some (.error s) => ([.getCfwUpgradeStatus], .error s)
    | none =>
      (.getCfwUpgradeStatus :: .melEvents ::
          (proxy_wait_for_upgrade (proxyWaitMel st step.mel) rest).1,
        (proxy_wait_for_upgrade (proxyWaitMel st step.mel) rest).2)

/-- The `if self.firmware:` block of `proxy_upgrade`. -/
def proxy_upgrade_fw_part (env : Env) (st : St) : List Call × Except RunStop St :=
  match env.firmware with
  | none => ([], .ok st)
  | some _ =>
    if !env.fwActivateOk then ([.proxyFwActivate], .error (.fail .proxyFwActivateFailed))
    else
      if env.wait_for_completion || st.nvsram_upgrade_required then
        (.proxyFwActivate ::
            (proxy_wait_for_upgrade { st with upgrade_in_progress := true }
              env.waitSteps1).1,
          (proxy_wait_for_upgrade { st with upgrade_in_progress := true } env.waitSteps1).2)
      else ([.proxyFwActivate], .ok { st with upgrade_in_progress := true })

/-- The `if self.nvsram:` block of `proxy_upgrade`. -/
def proxy_upgrade_nv_part (env : Env) (st1 : St) : List Call × Except RunStop St :=
  match env.nvsram with
  | none => ([], .ok st1)
  | some _ =>
    if !env.nvActivateOk then
      ([.proxyNvsramActivate], .error (.fail .proxyNvsramActivateFailed))
    else
      if env.wait_for_completion then
        (.proxyNvsramActivate ::
            (proxy_wait_for_upgrade { st1 with upgrade_in_progress := true }
              env.waitSteps2).1,
          (proxy_wait_for_upgrade { st1 with upgrade_in_progress := true }
            env.waitSteps2).2)
      else ([.proxyNvsramActivate], .ok { st1 with upgrade_in_progress := true })

/-- `NetAppESeriesFirmware.proxy_upgrade`: per supplied artifact (gated on
the path, not on its upgrade flag), POST the activation request, mark the
upgrade in progress, and wait when requested (for firmware, also when
nvsram requires upgrade, since nvsram must follow firmware). -/
def proxy_upgrade (env : Env) (st : St) : List Call × Except RunStop St :=
  match (proxy_upgrade_fw_part env st).2 with
  | .error s => ((proxy_upgrade_fw_part env st).1, .error s)
  | .ok st1 =>
    ((proxy_upgrade_fw_part env st).1 ++ (proxy_upgrade_nv_part env st1).1,
      (proxy_upgrade_nv_part env st1).2)

/-- The classification of one `wait_for_web_services` loop iteration. -/
inductive WfwsIter
  | success            -- both version comparisons matched; break
  | swallowed          -- a catchable exception, `except Exception: pass`
  | noMatch            -- the condition evaluated to False
  | modFail (k : FailKind)  -- fail_json escaped from a version extractor
  deriving DecidableEq, Repr

/-- One iteration of the `wait_for_web_services` loop body.  The
`bundle_display` extraction precedes the `rc == 200` test; the conjunction
short-circuits: `firmware_version()` runs only after `rc == 200`, and the
nvsram comparison only after the firmware versions matched (comparing a
byte string with `None` is `False`, not an error). -/
def wait_for_web_services_iter (fw nv : Option FwFile) (resp : Option SaResp) : WfwsIter :=
  match resp with
  | none => .swallowed
  | some r =>
    match r.bundleDisplay with
    | none => .swallowed
    | some bd =>
      if r.rc == 200 then
        match firmware_version fw with
        | .error .exc => .swallowed
        | .error (.fail k) => .modFail k
        | .ok fv =>
          if fv == some bd then
            match r.nvsramVersion with
            | none => .swallowed
            | some nvs =>
              match nvsram_version nv with
              | .error .exc => .swallowed
              | .error (.fail k) => .modFail k
              | .ok nvv => if nvs == nvv then .success else .noMatch
          else .noMatch
      else .noMatch

/-- `NetAppESeriesFirmware.wait_for_web_services`: up to
`REBOOT_TIMEOUT_SEC / 5 = 180` polls of `/sa/saData`; the `for ... else`
is the timeout `fail_json`.  Missing responses model raising requests. -/
def wait_for_web_services (fw nv : Option FwFile) :
    Nat → List (Option SaResp) → List Call × Except RunStop Unit
  | 0, _ => ([], .error (.fail .webServicesTimeout))
  | fuel + 1, resps =>
    let r := resps.headD none
    match wait_for_web_services_iter fw nv r with
    | .success => ([.saDataQuery], .ok ())
    | .modFail k => ([.saDataQuery], .error (.fail k))
    | _ =>
      (.saDataQuery :: (wait_for_web_services fw nv fuel resps.tail).1,
        (wait_for_web_services fw nv fuel resps.tail).2)

/-- The `while process.is_alive():` polling loop for the firmware upload of
`embedded_upgrade`.  `alive` is the remaining lifetime of the upload
process in poll ticks; `process.terminate()` ends the loop early when
activation has started and neither waiting nor an nvsram upgrade is
pending. -/
def embeddedFwLoop (env : Env) (st : St) : Nat → Nat → List Call × St
  | 0, _ => ([], st)
  | alive + 1, i =>
    let st' := (is_firmware_activation_started st (env.fwMel i)).1
    let started := (is_firmware_activation_started st (env.fwMel i)).2.1
    if !(env.wait_for_completion || st'.nvsram_upgrade_required) && started then
      ([.melEvents], st')
    else
      (.melEvents :: (embeddedFwLoop env st' alive (i + 1)).1,
        (embeddedFwLoop env st' alive (i + 1)).2)

/-- The `while process.is_alive():` polling loop for the nvsram upload. -/
def embeddedNvLoop (env : Env) (st : St) : Nat → Nat → List Call × St
  | 0, _ => ([], st)
  | alive + 1, i =>
    let st' := (is_nvsram_download_completed st (env.nvMel i)).1
    let completed := (is_nvsram_download_completed st (env.nvMel i)).2.1
    if !env.wait_for_completion && completed then
      ([.melEvents], st')
    else
      (.melEvents :: (embeddedNvLoop env st' alive (i + 1)).1,
        (embeddedNvLoop env st' alive (i + 1)).2)

/-- `NetAppESeriesFirmware.embedded_upgrade`: each supplied artifact is
uploaded by a separate process (the POST is issued when the process starts)
while the parent polls the MEL log; a `fail_json` inside the child process
dies with the child and never aborts the parent.  Afterwards
`upgrade_in_progress` is set and, if requested, the run waits for web
services (which clears the flag on success). -/
def embedded_upgrade (env : Env) (st : St) : List Call × Except RunStop St :=
  let fwPart : List Call × St :=
    match env.firmware with
    | none => ([], st)
    | some _ =>
      (Call.embFirmwareUpload :: (embeddedFwLoop env st env.fwUploadAlive 0).1,
        (embeddedFwLoop env st env.fwUploadAlive 0).2)
  let nvPart : List Call × St :=
    match env.nvsram with
    | none => ([], fwPart.2)
    | some _ =>
      (Call.embNvsramUpload :: (embeddedNvLoop env fwPart.2 env.nvUploadAlive 0).1,
        (embeddedNvLoop env fwPart.2 env.nvUploadAlive 0).2)
  let st3 := { nvPart.2 with upgrade_in_progress := true }
  if env.wait_for_completion then
    match wait_for_web_services env.firmware env.nvsram 180 env.saResponses with
    | (cs, .ok _) => (fwPart.1 ++ nvPart.1 ++ cs, .ok { st3 with upgrade_in_progress := false })
    | (cs, .error s) => (fwPart.1 ++ nvPart.1 ++ cs, .error s)
  else (fwPart.1 ++ nvPart.1, .ok st3)

/-! ### The apply state machine -/

/-- The check phase of `apply`: embedded systems check compatibility inline;
proxy systems determine whether an upgrade is required and, only then,
upload to the proxy and run the async compatibility check. -/
def checkPhase (env : Env) (st : St) : List Call × Except RunStop St :=
  if !env.isProxy then embedded_check_compatibility env st
  else
    match (proxy_check_upgrade_required env st).2 with
    | .error s => ((proxy_check_upgrade_required env st).1, .error s)
    | .ok st1 =>
      if st1.firmware_upgrade_required || st1.nvsram_upgrade_required then
        ((proxy_check_upgrade_required env st).1 ++
            (proxy_upload_and_check_compatibility env).1,
          match (proxy_upload_and_check_compatibility env).2 with
          | .error s => .error s
          | .ok _ => .ok st1)
      else ((proxy_check_upgrade_required env st).1, .ok st1)

/-- The upgrade phase of `apply`: entered only when some artifact requires
an upgrade and check mode is off. -/
def upgradePhase (env : Env) (st : St) : List Call × Except RunStop St :=
  if (st.firmware_upgrade_required || st.nvsram_upgrade_required) && !env.check_mode then
    if !env.isProxy then embedded_upgrade env st else proxy_upgrade env st
  else ([], .ok st)

/-- The terminal result of a run. -/
inductive Outcome
  | exited (changed upgrade_in_process : Bool)
  | failed (k : FailKind)
  | diverge
  deriving DecidableEq, Repr

def RunStop.toOutcome : RunStop → Outcome
  | .fail k => .failed k
  | .diverge => .diverge

/-- `NetAppESeriesFirmware.apply`, producing the trace of management-API
calls and the terminal outcome. -/
def applyRun (env : Env) : List Call × Outcome :=
  let c1 := (is_upgrade_in_progress env).1
  match (is_upgrade_in_progress env).2 with
  | .error s => (c1, s.toOutcome)
  | .ok inProgress =>
    if inProgress then (c1, .failed .alreadyInProgress)
    else
      match (checkPhase env {}).2 with
      | .error s => (c1 ++ (checkPhase env {}).1, s.toOutcome)
      | .ok st2 =>
        match (upgradePhase env st2).2 with
        | .error s => (c1 ++ (checkPhase env {}).1 ++ (upgradePhase env st2).1, s.toOutcome)
        | .ok st3 =>
          (c1 ++ (checkPhase env {}).1 ++ (upgradePhase env st2).1,
            .exited (st3.firmware_upgrade_required || st3.nvsram_upgrade_required)
              st3.upgrade_in_progress)

/-! ### Concrete fixtures -/

/-- A bundle firmware file in the format `firmware_version` parses. -/
def bundleFile : FwFile :=
  { name := "fw.dlp"
    lines := ["combined_content"
             , "displayableAttributeList=VERSION|08.42.30.00,FILENAME|fw.dlp"] }

/-- A singleton firmware image. -/
def singletonFile : FwFile :=
  { name := "fw_single.dlp"
    lines := ["firmware_image_1", "Product Version: 08.42.30.00"] }

/-- An NVSRAM file. -/
def nvsramFile : FwFile :=
  { name := "nv.dlp"
    lines := ["header", "x .NVSRAM Configuration Number \"N280X-842834-D02\" y"] }

/-- A benign environment: embedded topology, nothing supplied, every
request succeeds with empty content. -/
def baseEnv : Env :=
  { nvsram := none
    firmware := none
    wait_for_completion := false
    ignore_mel_events := false
    check_mode := false
    isProxy := false
    upgradeRunning := some false
    nvsramCompat := none
    bundleCompat := none
    currentBundleDisplay := none
    currentFwVersion := none
    currentNvsramVersion := none
    cfwFiles := some []
    fwUploadOk := true
    nvUploadOk := true
    fwCompatAttempts := []
    nvCompatAttempts := []
    fwActivateOk := true
    nvActivateOk := true
    waitSteps1 := []
    waitSteps2 := []
    fwUploadAlive := 0
    nvUploadAlive := 0
    fwMel := fun _ => none
    nvMel := fun _ => none
    saResponses := [] }

/-! ## Order lemmas for the Python byte-string comparison -/

theorem byteLt_irrefl (l : List Char) : byteLt l l = false := by
  induction l with
  | nil => rfl
  | cons a as ih => simp [byteLt, ih]

theorem byteLt_asymm {l m : List Char} (h : byteLt l m = true) : byteLt m l = false := by
  induction l generalizing m with
  | nil =>
    cases m with
    | nil => simp [byteLt] at h
    | cons b bs => simp [byteLt]
  | cons a as ih =>
    cases m with
    | nil => simp [byteLt] at h
    | cons b bs =>
      simp only [byteLt, Bool.or_eq_true, decide_eq_true_eq, Bool.and_eq_true,
        beq_iff_eq] at h
      rcases h with h | ⟨hab, h⟩
      · have h1 : ¬ b.toNat < a.toNat := by omega
        have h2 : b.toNat ≠ a.toNat := by omega
        simp [byteLt, h1, h2]
      · have h1 : ¬ b.toNat < a.toNat := by omega
        simp [byteLt, h1, ih h]

theorem byteLt_ne {l m : List Char} (h : byteLt l m = true) : l ≠ m := by
  intro he
  subst he
  simp [byteLt_irrefl] at h

theorem pyLt_irrefl (s : Str) : pyLt s s = false := byteLt_irrefl s.data

theorem pyLt_asymm {s t : Str} (h : pyLt s t = true) : pyLt t s = false :=
  byteLt_asymm h

theorem pyLt_ne {s t : Str} (h : pyLt s t = true) : s ≠ t := by
  intro he
  subst he
  simp [pyLt_irrefl] at h

/-! ## C1: failing fast when an upgrade is already in progress -/

/-- An embedded-topology run against a system that would report a running
upgrade: the module proceeds anyway. -/
def envC1 : Env :=
  { baseEnv with
    firmware := some bundleFile
    upgradeRunning := some true
    bundleCompat := some ⟨true, true, [⟨"m", "08.42.30.00", "08.42.30.00"⟩]⟩ }

/-- C1 (counterexample): in the direct (embedded) topology the module never
queries the upgrade status (`is_upgrade_in_progress` returns `False`
without a request), so a run against a system whose upgrade status is
`running` does not fail with `AlreadyInProgress` and performs further
management-API calls (here a compatibility check). -/
theorem C1_counterexample :
    envC1.isProxy = false ∧ envC1.upgradeRunning = some true ∧
    (applyRun envC1).2 ≠ Outcome.failed FailKind.alreadyInProgress ∧
    (applyRun envC1).1 ≠ [] := by decide

/-- C1 (amended): on the *proxy* topology, a run that starts while the
target system reports `running = true` fails with `AlreadyInProgress`
after exactly the one status query: no compatibility check, upload or
activation is performed.  (On the embedded topology the in-progress state
is never consulted.) -/
theorem C1_proxy_fails_fast (env : Env) (hp : env.isProxy = true)
    (hr : env.upgradeRunning = some true) :
    applyRun env = ([Call.getCfwUpgradeStatus], Outcome.failed FailKind.alreadyInProgress) := by
  simp [applyRun, is_upgrade_in_progress, hp, hr]

/-- Witness for `C1_proxy_fails_fast` at a concrete environment. -/
theorem C1_witness :
    applyRun { baseEnv with isProxy := true, upgradeRunning := some true } =
      ([Call.getCfwUpgradeStatus], Outcome.failed FailKind.alreadyInProgress) :=
  C1_proxy_fails_fast { baseEnv with isProxy := true, upgradeRunning := some true } rfl rfl

/-! ## C6: proxy compatibility polling times out, never silently succeeds -/

/-- Every poll response reports `checkRunning = true` (raised polls count
as no report). -/
def allRunning (polls : List (Option CompatPollResp)) : Bool :=
  polls.all (fun op => op.elim true CompatPollResp.checkRunning)

theorem fwCompatLoop_timeout (name : Str) (fuel : Nat) :
    ∀ polls, allRunning polls = true →
    (fwCompatLoop name fuel polls).2 = .error (.fail .fwCompatTimeout) := by
  induction fuel with
  | zero => intro polls _; rfl
  | succ fuel ih =>
    intro polls h
    match polls with
    | [] => simpa [fwCompatLoop] using ih [] rfl
    | none :: rest =>
      simp only [allRunning, List.all_cons, Option.elim, Bool.true_and] at h
      simpa [fwCompatLoop] using ih rest h
    | some r :: rest =>
      simp only [allRunning, List.all_cons, Option.elim, Bool.and_eq_true] at h
      simpa [fwCompatLoop, h.1] using ih rest h.2

theorem nvCompatLoop_timeout (name : Str) (fuel : Nat) :
    ∀ polls, allRunning polls = true →
    (nvCompatLoop name fuel polls).2 = .error (.fail .nvsramCompatTimeout) := by
  induction fuel with
  | zero => intro polls _; rfl
  | succ fuel ih =>
    intro polls h
    match polls with
    | [] => simpa [nvCompatLoop] using ih [] rfl
    | none :: rest =>
      simp only [allRunning, List.all_cons, Option.elim, Bool.true_and] at h
      simpa [nvCompatLoop] using ih rest h
    | some r :: rest =>
      simp only [allRunning, List.all_cons, Option.elim, Bool.and_eq_true] at h
      simpa [nvCompatLoop, h.1] using ih rest h.2

/-- C6: in the proxy topology, when the initial compatibility-check POST
succeeds but every status poll reports `checkRunning = true`, both
`proxy_check_firmware_compatibility` and `proxy_check_nvsram_compatibility`
exhaust their 12 polls (60 s at 5 s) and end in the timeout `fail_json`;
they never return success. -/
theorem C6_compat_poll_timeout :
    (∀ (name : Str) (polls : List (Option CompatPollResp)) (rest : List CompatAttempt),
      allRunning polls = true →
      (proxy_check_firmware_compatibility name (some polls :: rest) 10).2 =
        .error (.fail .fwCompatTimeout)) ∧
    (∀ (name : Str) (polls : List (Option CompatPollResp)) (rest : List CompatAttempt),
      allRunning polls = true →
      (proxy_check_nvsram_compatibility name (some polls :: rest) 10).2 =
        .error (.fail .nvsramCompatTimeout)) := by
  constructor
  · intro name polls rest h
    simpa [proxy_check_firmware_compatibility] using fwCompatLoop_timeout name 12 polls h
  · intro name polls rest h
    simpa [proxy_check_nvsram_compatibility] using nvCompatLoop_timeout name 12 polls h

/-- Witness for `C6_compat_poll_timeout`: 12 polls, all still running. -/
theorem C6_witness :
    (proxy_check_firmware_compatibility "fw.dlp"
        [some (List.replicate 12 (some ⟨true, some []⟩))] 10).2 =
      .error (.fail .fwCompatTimeout) ∧
    (proxy_check_nvsram_compatibility "nv.dlp"
        [some (List.replicate 12 (some ⟨true, some []⟩))] 10).2 =
      .error (.fail .nvsramCompatTimeout) :=
  ⟨C6_compat_poll_timeout.1 "fw.dlp" (List.replicate 12 (some ⟨true, some []⟩)) [] (by decide),
   C6_compat_poll_timeout.2 "nv.dlp" (List.replicate 12 (some ⟨true, some []⟩)) [] (by decide)⟩

/-! ## C7: firmware version extraction -/

theorem pyInList_of_isPrefixOf {n h : List Char} (hp : n.isPrefixOf h = true) :
    pyInList n h = true := by
  cases h with
  | nil => simpa [pyInList] using hp
  | cons a t => simp [pyInList, hp]

theorem pyContains_self_append (needle rest : Str) :
    pyContains (needle ++ rest) needle = true := by
  apply pyInList_of_isPrefixOf
  have : (needle ++ rest).data = needle.data ++ rest.data := rfl
  rw [this, List.isPrefixOf_iff_prefix]
  exact List.prefix_append _ _

theorem strMk_data (s : Str) : String.mk s.data = s := rfl

/-- The `VERSION`-keyed values among the comma-separated `KEY|VALUE` items. -/
def versionValues (items : List Str) : List Str :=
  items.filterMap (fun it =>
    match pySplit '|' it with
    | [k, w] => if k = "VERSION" then some w else none
    | _ => none)

theorem bundleVersionOfItems_no_version (items : List Str)
    (hpair : ∀ it ∈ items, ∃ k w, pySplit '|' it = [k, w])
    (hv : versionValues items = []) :
    ∀ acc, bundleVersionOfItems items acc = .ok acc := by
  induction items with
  | nil => intro acc; rfl
  | cons it rest ih =>
    intro acc
    obtain ⟨k, w, hkw⟩ := hpair it (List.mem_cons_self _ _)
    simp only [versionValues, List.filterMap_cons, hkw] at hv
    by_cases hk : k = "VERSION"
    · simp [hk] at hv
    · have hrest : versionValues rest = [] := by
        simpa [versionValues, hk] using hv
      simp only [bundleVersionOfItems, splitBar2, hkw]
      rw [ih (fun x hx => hpair x (List.mem_cons_of_mem _ hx)) hrest]
      simp [show (k == "VERSION") = false by simpa using hk]

theorem bundleVersionOfItems_single_version (items : List Str) (v : Str)
    (hpair : ∀ it ∈ items, ∃ k w, pySplit '|' it = [k, w])
    (hv : versionValues items = [v]) :
    ∀ acc, bundleVersionOfItems items acc = .ok (some (stripNl v)) := by
  induction items with
  | nil => simp [versionValues] at hv
  | cons it rest ih =>
    intro acc
    obtain ⟨k, w, hkw⟩ := hpair it (List.mem_cons_self _ _)
    have hpair' : ∀ x ∈ rest, ∃ k w, pySplit '|' x = [k, w] :=
      fun x hx => hpair x (List.mem_cons_of_mem _ hx)
    simp only [versionValues, List.filterMap_cons, hkw] at hv
    by_cases hk : k = "VERSION"
    · simp only [hk, if_pos rfl] at hv
      have hw : w = v := by
        have := List.cons_eq_cons.mp hv
        exact this.1
      have hrest : versionValues rest = [] := (List.cons_eq_cons.mp hv).2
      simp only [bundleVersionOfItems, splitBar2, hkw]
      rw [bundleVersionOfItems_no_version rest hpair' hrest]
      simp [hk, hw]
    · have hrest : versionValues rest = [v] := by
        simpa [hk] using hv
      simp only [bundleVersionOfItems, splitBar2, hkw]
      rw [ih hpair' hrest]

theorem firmware_version_lines_skip_bundle (pre l : List Str)
    (hpre : ∀ x ∈ pre, pyContains x "displayableAttributeList=" = false) :
    firmware_version_lines true (pre ++ l) = firmware_version_lines true l := by
  induction pre with
  | nil => rfl
  | cons x pre ih =>
    have hx := hpre x (List.mem_cons_self _ _)
    have ih' := ih (fun y hy => hpre y (List.mem_cons_of_mem _ hy))
    cases l with
    | nil =>
      simp only [List.append_nil] at ih'
      simp [firmware_version_lines, hx, ih']
    | cons b bs => simp [firmware_version_lines, hx, ih']

theorem splitOnPred_pieces (p : Char → Bool) (l : List Char) :
    ∀ piece ∈ splitOnPred p l, ∀ c ∈ piece, p c = false := by
  induction l with
  | nil =>
    intro piece hp c hc
    simp [splitOnPred] at hp
    subst hp
    simp at hc
  | cons x xs ih =>
    intro piece hp c hc
    by_cases hx : p x = true
    · simp only [splitOnPred, hx, if_pos rfl] at hp
      rcases List.mem_cons.mp hp with h | h
      · subst h; simp at hc
      · exact ih piece h c hc
    · simp only [splitOnPred] at hp
      rw [if_neg hx] at hp
      rcases hg : splitOnPred p xs with _ | ⟨g, gs⟩
      · rw [hg] at hp
        simp at hp
        subst hp
        rcases List.mem_singleton.mp hc with rfl
        simpa using hx
      · rw [hg] at hp
        rcases List.mem_cons.mp hp with h | h
        · subst h
          rcases List.mem_cons.mp hc with rfl | h
          · simpa using hx
          · exact ih g (by rw [hg]; exact List.mem_cons_self _ _) c h
        · exact ih piece (by rw [hg]; exact List.mem_cons_of_mem _ h) c hc

theorem dropWhile_nl_of_none (l : List Char) (h : ∀ c ∈ l, (c == '\n') = false) :
    l.dropWhile (· == '\n') = l := by
  cases l with
  | nil => rfl
  | cons a t => simp [List.dropWhile_cons, h a (List.mem_cons_self _ _)]

theorem stripNl_of_no_nl (s : Str) (h : ∀ c ∈ s.data, (c == '\n') = false) :
    stripNl s = s := by
  unfold stripNl
  rw [dropWhile_nl_of_none _ h,
    dropWhile_nl_of_none _ (fun c hc => h c (List.mem_reverse.mp hc)),
    List.reverse_reverse]

theorem pySplitWs_token_no_ws (l : Str) (v : Str) (hv : v ∈ pySplitWs l) :
    ∀ c ∈ v.data, Char.isWhitespace c = false := by
  intro c hc
  obtain ⟨piece, hpf, rfl⟩ := List.mem_map.mp hv
  have hp := List.mem_filter.mp hpf
  exact splitOnPred_pieces Char.isWhitespace l.data piece hp.1 c hc

theorem firmware_version_lines_skip_single (pre l : List Str)
    (hpre : ∀ x ∈ pre, pyContains x "Version:" = false) :
    firmware_version_lines false (pre ++ l) = firmware_version_lines false l := by
  induction pre with
  | nil => rfl
  | cons x pre ih =>
    have hx := hpre x (List.mem_cons_self _ _)
    have ih' := ih (fun y hy => hpre y (List.mem_cons_of_mem _ hy))
    cases l with
    | nil =>
      simp only [List.append_nil] at ih'
      simp [firmware_version_lines, hx, ih']
    | cons b bs => simp [firmware_version_lines, hx, ih']

theorem firmware_version_eq_lines (f : FwFile) (b : Bool)
    (hb : is_firmware_bundled (some f) = .ok b) (hne : f.lines ≠ []) :
    firmware_version (some f) = firmware_version_lines b f.lines := by
  simp only [firmware_version, if_neg hne, hb]

/-- C7: firmware version extraction.
First conjunct (bundle): for a bundle file whose first
`displayableAttributeList=` line consists of comma-separated `KEY|VALUE`
items whose sole `VERSION`-keyed value is `v` (no newline bytes in `v`),
`firmware_version` returns exactly `v`.
Second conjunct (singleton): for a singleton file whose first line with
`Version:` has last whitespace-delimited token `v`, it returns exactly `v`.
Third conjunct: when no line carries the recognised marker by end of file,
it fails with the malformed-artifact `fail_json`. -/
theorem C7_extract_version :
    (∀ (f : FwFile) (pre suf : List Str) (rest v : Str),
      is_firmware_bundled (some f) = .ok true →
      f.lines = pre ++ (("displayableAttributeList=" ++ rest) :: suf) →
      (∀ x ∈ pre, pyContains x "displayableAttributeList=" = false) →
      ((pySplit ',' rest).all (fun it => (pySplit '|' it).length == 2) = true) →
      versionValues (pySplit ',' rest) = [v] →
      (∀ c ∈ v.data, (c == '\n') = false) →
      firmware_version (some f) = .ok (some v)) ∧
    (∀ (f : FwFile) (pre suf : List Str) (l v : Str),
      is_firmware_bundled (some f) = .ok false →
      f.lines = pre ++ l :: suf →
      (∀ x ∈ pre, pyContains x "Version:" = false) →
      pyContains l "Version:" = true →
      (pySplitWs l).getLast? = some v →
      firmware_version (some f) = .ok (some v)) ∧
    (∀ (f : FwFile),
      is_firmware_bundled (some f) = .ok true →
      (∀ x ∈ f.lines, pyContains x "displayableAttributeList=" = false) →
      firmware_version (some f) = .error (.fail .malformedFirmware)) ∧
    (∀ (f : FwFile),
      is_firmware_bundled (some f) = .ok false →
      (∀ x ∈ f.lines, pyContains x "Version:" = false) →
      firmware_version (some f) = .error (.fail .malformedFirmware)) := by
  refine ⟨?_, ?_, ?_, ?_⟩
  · intro f pre suf rest v hb hl hpre hpair hvv hnl
    have hpair' : ∀ it ∈ pySplit ',' rest, ∃ k w, pySplit '|' it = [k, w] := by
      intro it hit
      have h2 : ((pySplit '|' it).length == 2) = true := List.all_eq_true.mp hpair it hit
      rw [beq_iff_eq] at h2
      match hsp : pySplit '|' it, h2 with
      | [a, b], _ => exact ⟨a, b, rfl⟩
    rw [firmware_version_eq_lines f true hb (by simp [hl]), hl,
      firmware_version_lines_skip_bundle pre _ hpre]
    have hcontains : pyContains ("displayableAttributeList=" ++ rest)
        "displayableAttributeList=" = true := pyContains_self_append _ _
    have hdrop : pyDrop ("displayableAttributeList=" ++ rest) 25 = rest := by
      show String.mk ((("displayableAttributeList=" : Str).data ++ rest.data).drop 25) = rest
      have h25 : ("displayableAttributeList=" : Str).data.length = 25 := by decide
      rw [← h25, List.drop_left]
    have h1 : firmware_version_lines true (("displayableAttributeList=" ++ rest) :: suf) =
        bundleVersionOfItems (pySplit ',' (pyDrop ("displayableAttributeList=" ++ rest) 25))
          none := by
      simp only [firmware_version_lines, hcontains]
      simp
    rw [h1, hdrop, bundleVersionOfItems_single_version (pySplit ',' rest) v hpair' hvv none,
      stripNl_of_no_nl v hnl]
  · intro f pre suf l v hb hl hpre hcont hlast
    rw [firmware_version_eq_lines f false hb (by simp [hl]), hl,
      firmware_version_lines_skip_single pre _ hpre]
    have hmem : v ∈ pySplitWs l := by
      have hv' : v ∈ (pySplitWs l).getLast? := by rw [hlast]; rfl
      obtain ⟨hne, heq⟩ := List.mem_getLast?_eq_getLast hv'
      rw [heq]
      exact List.getLast_mem hne
    have hnl : ∀ c ∈ v.data, (c == '\n') = false := by
      intro c hc
      have := pySplitWs_token_no_ws l v hmem c hc
      by_contra hne
      rw [Bool.not_eq_false, beq_iff_eq] at hne
      subst hne
      simp [Char.isWhitespace] at this
    have h1 : firmware_version_lines false (l :: suf) = .ok (some (stripNl v)) := by
      simp only [firmware_version_lines, hcont, hlast]
      simp
    rw [h1, stripNl_of_no_nl v hnl]
  · intro f hb hnone
    cases hl : f.lines with
    | nil => simp [firmware_version, hl]
    | cons x xs =>
      rw [firmware_version_eq_lines f true hb (by simp [hl]), hl]
      have : firmware_version_lines true ((x :: xs) ++ []) =
          firmware_version_lines true [] :=
        firmware_version_lines_skip_bundle (x :: xs) [] (by rw [← hl]; exact hnone)
      simpa using this
  · intro f hb hnone
    cases hl : f.lines with
    | nil => simp [firmware_version, hl]
    | cons x xs =>
      rw [firmware_version_eq_lines f false hb (by simp [hl]), hl]
      have : firmware_version_lines false ((x :: xs) ++ []) =
          firmware_version_lines false [] :=
        firmware_version_lines_skip_single (x :: xs) [] (by rw [← hl]; exact hnone)
      simpa using this

/-- A bundle file realising the spec's `VERSION|9.1` example. -/
def bundleFile91 : FwFile :=
  { name := "b.dlp"
    lines := ["combined_content", "displayableAttributeList=KEY|VALUE,VERSION|9.1"] }

/-- A bundle file with no `displayableAttributeList=` marker. -/
def bundleFileNoMarker : FwFile :=
  { name := "bad.dlp", lines := ["combined_content", "no marker here"] }

/-- Witness for `C7_extract_version` at the spec's concrete examples. -/
theorem C7_witness :
    firmware_version (some bundleFile91) = .ok (some "9.1") ∧
    firmware_version (some singletonFile) = .ok (some "08.42.30.00") ∧
    firmware_version (some bundleFileNoMarker) = .error (.fail .malformedFirmware) :=
  ⟨C7_extract_version.1 bundleFile91 ["combined_content"] []
      "KEY|VALUE,VERSION|9.1" "9.1" (by decide) rfl (by decide) (by decide) (by decide)
      (by decide),
   C7_extract_version.2.1 singletonFile ["firmware_image_1"] []
      "Product Version: 08.42.30.00" "08.42.30.00" (by decide) rfl (by decide) (by decide)
      (by decide),
   C7_extract_version.2.2.1 bundleFileNoMarker (by decide) (by decide)⟩

/-! ## C5: the MEL cursor advances monotonically and never re-emits -/

/-- State component of a `melScan` result. -/
def melOutSt : Except (St × List Int) (St × Bool × List Int) → St
  | .ok (s, _, _) => s
  | .error (s, _) => s

/-- Consumed sequence numbers of a `melScan` result. -/
def melOutSeqs : Except (St × List Int) (St × Bool × List Int) → List Int
  | .ok (_, _, ns) => ns
  | .error (_, ns) => ns

/-- The sequence-number ordering used for well-formed log responses. -/
def seqLt (a b : MelEvent) : Prop :=
  ∀ x y : Int, a.seq = some x → b.seq = some y → x < y

theorem melScan_cursor (target : Str) (bump : St → St)
    (hb : ∀ s, (bump s).start_mel_event = s.start_mel_event) :
    ∀ (evs : List MelEvent) (st : St),
    (∀ e ∈ evs, ∀ n : Int, e.seq = some n → st.start_mel_event ≤ n) →
    List.Pairwise seqLt evs →
    st.start_mel_event ≤ (melOutSt (melScan target bump st evs)).start_mel_event ∧
    (∀ n ∈ melOutSeqs (melScan target bump st evs),
      st.start_mel_event ≤ n ∧
        n < (melOutSt (melScan target bump st evs)).start_mel_event) ∧
    List.Sorted (· < ·) (melOutSeqs (melScan target bump st evs)) := by
  intro evs
  induction evs with
  | nil =>
    intro st _ _
    refine ⟨?_, by simp [melScan, melOutSeqs], by simp [melScan, melOutSeqs]⟩
    simp [melScan, melOutSt, hb]
  | cons e rest ih =>
    intro st hlb hasc
    rcases List.pairwise_cons.mp hasc with ⟨hhead, hrest⟩
    cases hlab : e.label with
    | none => simp [melScan, hlab, melOutSt, melOutSeqs]
    | some lab =>
      cases hseq : e.seq with
      | none => simp [melScan, hlab, hseq, melOutSt, melOutSeqs]
      | some n =>
        have hn : st.start_mel_event ≤ n := hlb e (List.mem_cons_self _ _) n hseq
        cases hdesc : e.desc with
        | none =>
          simp only [melScan, hlab, hseq, hdesc]
          refine ⟨by simp [melOutSt]; omega, ?_, by simp [melOutSeqs]⟩
          intro m hm
          simp only [melOutSeqs, List.mem_singleton] at hm
          subst hm
          simp [melOutSt]
          omega
        | some d =>
          by_cases htgt : (d == target) = true
          · simp only [melScan, hlab, hseq, hdesc]
            rw [if_pos htgt]
            refine ⟨by simp [melOutSt]; omega, ?_, by simp [melOutSeqs]⟩
            intro m hm
            simp only [melOutSeqs, List.mem_singleton] at hm
            subst hm
            simp [melOutSt]
            omega
          · have hlb' : ∀ e' ∈ rest, ∀ m : Int, e'.seq = some m →
                ({ st with start_mel_event := n + 1 } : St).start_mel_event ≤ m := by
              intro e' he' m hm
              have := hhead e' he' n m hseq hm
              simp only
              omega
            obtain ⟨ih1, ih2, ih3⟩ := ih { st with start_mel_event := n + 1 } hlb' hrest
            simp only at ih1 ih2
            simp only [melScan, hlab, hseq, hdesc]
            rw [if_neg htgt]
            cases hr : melScan target bump { st with start_mel_event := n + 1 } rest with
            | ok r =>
              obtain ⟨st'', b, ns⟩ := r
              rw [hr] at ih1 ih2 ih3
              simp only [melOutSt, melOutSeqs] at ih1 ih2 ih3 ⊢
              refine ⟨by omega, ?_, ?_⟩
              · intro m hm
                rcases List.mem_cons.mp hm with rfl | hm
                · exact ⟨hn, by omega⟩
                · have := ih2 m hm
                  constructor <;> omega
              · refine List.sorted_cons.mpr ⟨?_, ih3⟩
                intro m hm
                have := ih2 m hm
                omega
            | error r =>
              obtain ⟨st'', ns⟩ := r
              rw [hr] at ih1 ih2 ih3
              simp only [melOutSt, melOutSeqs] at ih1 ih2 ih3 ⊢
              refine ⟨by omega, ?_, ?_⟩
              · intro m hm
                rcases List.mem_cons.mp hm with rfl | hm
                · exact ⟨hn, by omega⟩
                · have := ih2 m hm
                  constructor <;> omega
              · refine List.sorted_cons.mpr ⟨?_, ih3⟩
                intro m hm
                have := ih2 m hm
                omega

/-- Which of the two cited polling operations runs (the single-item
`count = 1` versus burst `count = 100` widening lives in the state's count
fields and only influences what the server sends back). -/
inductive PollKind
  | fwAct
  | nvDl
  deriving DecidableEq, Repr

/-- One poll: run the chosen operation, yielding the new state, whether the
milestone was seen, and the consumed sequence numbers. -/
def doPoll (st : St) : PollKind × Option (List MelEvent) → St × Bool × List Int
  | (.fwAct, r) => is_firmware_activation_started st r
  | (.nvDl, r) => is_nvsram_download_completed st r

/-- Run an interleaving of polls, collecting all consumed sequence numbers. -/
def runPolls (st : St) : List (PollKind × Option (List MelEvent)) → St × List Int
  | [] => (st, [])
  | p :: ps =>
    ((runPolls (doPoll st p).1 ps).1,
      (doPoll st p).2.2 ++ (runPolls (doPoll st p).1 ps).2)

/-- A response is well-formed for cursor `start` when the log honoured the
`startSequenceNumber=start` request: present sequence numbers are at least
`start` and strictly ascending (a raised request carries no data). -/
def WfResp (start : Int) : Option (List MelEvent) → Prop
  | none => True
  | some evs =>
    (∀ e ∈ evs, ∀ n : Int, e.seq = some n → start ≤ n) ∧ List.Pairwise seqLt evs

/-- Every response in the interleaving is well-formed for the cursor the
poll was issued with. -/
def WfPolls (st : St) : List (PollKind × Option (List MelEvent)) → Prop
  | [] => True
  | p :: ps => WfResp st.start_mel_event p.2 ∧ WfPolls (doPoll st p).1 ps

theorem doPoll_cursor (st : St) (p : PollKind × Option (List MelEvent))
    (h : WfResp st.start_mel_event p.2) :
    st.start_mel_event ≤ (doPoll st p).1.start_mel_event ∧
    (∀ n ∈ (doPoll st p).2.2,
      st.start_mel_event ≤ n ∧ n < (doPoll st p).1.start_mel_event) ∧
    List.Sorted (· < ·) (doPoll st p).2.2 := by
  obtain ⟨k, r⟩ := p
  cases r with
  | none =>
    cases k <;>
      simp [doPoll, is_firmware_activation_started, is_nvsram_download_completed]
  | some evs =>
    obtain ⟨hlb, hasc⟩ := h
    cases k with
    | fwAct =>
      have hm := melScan_cursor "Activate controller firmware started"
        (fun s => if s.fw_act_count == 1 then { s with fw_act_count := 100 } else s)
        (fun s => by dsimp only; split <;> rfl) evs st hlb hasc
      simp only [doPoll, is_firmware_activation_started, fwActivationEvents]
      cases hr : melScan "Activate controller firmware started"
          (fun s => if s.fw_act_count == 1 then { s with fw_act_count := 100 } else s)
          st evs with
      | ok r =>
        obtain ⟨s', b, ns⟩ := r
        rw [hr] at hm
        simpa [melOutSt, melOutSeqs] using hm
      | error r =>
        obtain ⟨s', ns⟩ := r
        rw [hr] at hm
        simpa [melOutSt, melOutSeqs] using hm
    | nvDl =>
      have hm := melScan_cursor "Controller NVSRAM download completed"
        (fun s => if s.nv_dl_count == 1 then { s with nv_dl_count := 100 } else s)
        (fun s => by dsimp only; split <;> rfl) evs st hlb hasc
      simp only [doPoll, is_nvsram_download_completed, nvsramDownloadEvents]
      cases hr : melScan "Controller NVSRAM download completed"
          (fun s => if s.nv_dl_count == 1 then { s with nv_dl_count := 100 } else s)
          st evs with
      | ok r =>
        obtain ⟨s', b, ns⟩ := r
        rw [hr] at hm
        simpa [melOutSt, melOutSeqs] using hm
      | error r =>
        obtain ⟨s', ns⟩ := r
        rw [hr] at hm
        simpa [melOutSt, melOutSeqs] using hm

theorem runPolls_cursor (polls : List (PollKind × Option (List MelEvent))) :
    ∀ st : St, WfPolls st polls →
    st.start_mel_event ≤ (runPolls st polls).1.start_mel_event ∧
    (∀ n ∈ (runPolls st polls).2,
      st.start_mel_event ≤ n ∧ n < (runPolls st polls).1.start_mel_event) ∧
    List.Sorted (· < ·) (runPolls st polls).2 := by
  induction polls with
  | nil => intro st _; simp [runPolls]
  | cons p ps ih =>
    intro st h
    obtain ⟨h1, h2⟩ := h
    obtain ⟨d1, d2, d3⟩ := doPoll_cursor st p h1
    obtain ⟨i1, i2, i3⟩ := ih (doPoll st p).1 h2
    simp only [runPolls]
    refine ⟨by omega, ?_, ?_⟩
    · intro n hn
      rcases List.mem_append.mp hn with hn | hn
      · have := d2 n hn
        constructor <;> omega
      · have := i2 n hn
        constructor <;> omega
    · rw [List.Sorted, List.pairwise_append]
      refine ⟨d3, i3, ?_⟩
      intro a ha b hb
      have hda := d2 a ha
      have hdb := i2 b hb
      omega

theorem runPolls_append (l1 l2 : List (PollKind × Option (List MelEvent))) :
    ∀ st : St, runPolls st (l1 ++ l2) =
      ((runPolls (runPolls st l1).1 l2).1,
        (runPolls st l1).2 ++ (runPolls (runPolls st l1).1 l2).2) := by
  induction l1 with
  | nil => intro st; simp [runPolls]
  | cons p ps ih => intro st; simp [runPolls, ih]

theorem WfPolls_append (l1 l2 : List (PollKind × Option (List MelEvent))) :
    ∀ st : St, WfPolls st (l1 ++ l2) → WfPolls (runPolls st l1).1 l2 := by
  induction l1 with
  | nil => intro st h; simpa [runPolls] using h
  | cons p ps ih =>
    intro st h
    obtain ⟨h1, h2⟩ := h
    simpa [runPolls] using ih (doPoll st p).1 h2

/-- C5: across any interleaving of the two event-poll operations whose
responses honour the requested `startSequenceNumber` (present sequence
numbers at least the cursor and strictly ascending — the log is sequential
and append-only), the cursor `start_mel_event` never decreases across any
prefix of the run, and the consumed sequence numbers are strictly
increasing over the whole run: no previously consumed sequence number is
ever re-emitted. -/
theorem C5_mel_cursor_monotone (st : St) (polls : List (PollKind × Option (List MelEvent)))
    (h : WfPolls st polls) :
    (∀ pre suf, polls = pre ++ suf →
      (runPolls st pre).1.start_mel_event ≤ (runPolls st polls).1.start_mel_event) ∧
    List.Sorted (· < ·) (runPolls st polls).2 ∧
    (∀ n ∈ (runPolls st polls).2,
      st.start_mel_event ≤ n ∧ n < (runPolls st polls).1.start_mel_event) := by
  obtain ⟨m1, m2, m3⟩ := runPolls_cursor polls st h
  refine ⟨?_, m3, m2⟩
  intro pre suf hps
  subst hps
  have hw2 := WfPolls_append pre suf st h
  have := (runPolls_cursor suf (runPolls st pre).1 hw2).1
  rw [runPolls_append pre suf st]
  exact this

/-- Witness for `C5_mel_cursor_monotone`: a burst poll of each kind over a
well-formed log slice. -/
theorem C5_witness :
    (∀ pre suf,
      ([(PollKind.fwAct, some [⟨some "A", some 5, some "x"⟩]),
        (PollKind.nvDl, some [⟨some "B", some 7, some "y"⟩, ⟨some "B", some 9, some "z"⟩])] :
          List (PollKind × Option (List MelEvent))) = pre ++ suf →
      (runPolls {} pre).1.start_mel_event ≤
        (runPolls {}
          [(PollKind.fwAct, some [⟨some "A", some 5, some "x"⟩]),
           (PollKind.nvDl, some [⟨some "B", some 7, some "y"⟩, ⟨some "B", some 9, some "z"⟩])]).1.start_mel_event) ∧
    List.Sorted (· < ·)
      (runPolls {}
        [(PollKind.fwAct, some [⟨some "A", some 5, some "x"⟩]),
         (PollKind.nvDl, some [⟨some "B", some 7, some "y"⟩, ⟨some "B", some 9, some "z"⟩])]).2 ∧
    (∀ n ∈ (runPolls {}
        [(PollKind.fwAct, some [⟨some "A", some 5, some "x"⟩]),
         (PollKind.nvDl, some [⟨some "B", some 7, some "y"⟩, ⟨some "B", some 9, some "z"⟩])]).2,
      (({} : St)).start_mel_event ≤ n ∧
        n < (runPolls {}
          [(PollKind.fwAct, some [⟨some "A", some 5, some "x"⟩]),
           (PollKind.nvDl, some [⟨some "B", some 7, some "y"⟩, ⟨some "B", some 9, some "z"⟩])]).1.start_mel_event) :=
  C5_mel_cursor_monotone {} _ (by
    refine ⟨⟨?_, ?_⟩, ⟨?_, ?_⟩, trivial⟩
    · intro e he n hn
      simp at he
      subst he
      simp at hn
      subst hn
      decide
    · simp
    · intro e he n hn
      rcases List.mem_cons.mp he with rfl | he
      · simp at hn
        subst hn
        decide
      · simp at he
        subst he
        simp at hn
        subst hn
        decide
    · refine List.pairwise_pair.mpr ?_
      intro x y hx hy
      simp at hx hy
      omega)

/-! ## Frame lemmas: MEL polling never touches the upgrade flags -/

/-- `s'` agrees with `s` on the three upgrade flags. -/
def FlagsEq (s s' : St) : Prop :=
  s'.firmware_upgrade_required = s.firmware_upgrade_required ∧
  s'.nvsram_upgrade_required = s.nvsram_upgrade_required ∧
  s'.upgrade_in_progress = s.upgrade_in_progress

theorem FlagsEq.refl (s : St) : FlagsEq s s := ⟨rfl, rfl, rfl⟩

theorem FlagsEq.trans {a b c : St} (h1 : FlagsEq a b) (h2 : FlagsEq b c) : FlagsEq a c := by
  obtain ⟨x1, x2, x3⟩ := h1
  obtain ⟨y1, y2, y3⟩ := h2
  exact ⟨y1.trans x1, y2.trans x2, y3.trans x3⟩

theorem melScan_flags (target : Str) (bump : St → St)
    (hb : ∀ s, FlagsEq s (bump s)) :
    ∀ (evs : List MelEvent) (st : St), FlagsEq st (melOutSt (melScan target bump st evs)) := by
  intro evs
  induction evs with
  | nil => intro st; simpa [melScan, melOutSt] using hb st
  | cons e rest ih =>
    intro st
    cases hlab : e.label with
    | none => simp [melScan, hlab, melOutSt, FlagsEq.refl]
    | some lab =>
      cases hseq : e.seq with
      | none => simp [melScan, hlab, hseq, melOutSt, FlagsEq.refl]
      | some n =>
        cases hdesc : e.desc with
        | none =>
          simp only [melScan, hlab, hseq, hdesc]
          exact ⟨rfl, rfl, rfl⟩
        | some d =>
          by_cases htgt : (d == target) = true
          · simp only [melScan, hlab, hseq, hdesc]
            rw [if_pos htgt]
            exact ⟨rfl, rfl, rfl⟩
          · have hstep : FlagsEq st { st with start_mel_event := n + 1 } := ⟨rfl, rfl, rfl⟩
            have := ih { st with start_mel_event := n + 1 }
            simp only [melScan, hlab, hseq, hdesc]
            rw [if_neg htgt]
            cases hr : melScan target bump { st with start_mel_event := n + 1 } rest with
            | ok r =>
              obtain ⟨st'', b, ns⟩ := r
              rw [hr] at this
              simp only [melOutSt] at this ⊢
              exact hstep.trans this
            | error r =>
              obtain ⟨st'', ns⟩ := r
              rw [hr] at this
              simp only [melOutSt] at this ⊢
              exact hstep.trans this

theorem is_firmware_activation_started_flags (st : St) (r : Option (List MelEvent)) :
    FlagsEq st (is_firmware_activation_started st r).1 := by
  cases r with
  | none => exact FlagsEq.refl st
  | some evs =>
    have := melScan_flags "Activate controller firmware started"
      (fun s => if s.fw_act_count == 1 then { s with fw_act_count := 100 } else s)
      (fun s => by dsimp only; split <;> exact ⟨rfl, rfl, rfl⟩) evs st
    simp only [is_firmware_activation_started, fwActivationEvents]
    cases hr : melScan "Activate controller firmware started"
        (fun s => if s.fw_act_count == 1 then { s with fw_act_count := 100 } else s) st evs with
    | ok r' =>
      obtain ⟨s', b, ns⟩ := r'
      rw [hr] at this
      simpa [melOutSt] using this
    | error r' =>
      obtain ⟨s', ns⟩ := r'
      rw [hr] at this
      simpa [melOutSt] using this

theorem is_nvsram_download_completed_flags (st : St) (r : Option (List MelEvent)) :
    FlagsEq st (is_nvsram_download_completed st r).1 := by
  cases r with
  | none => exact FlagsEq.refl st
  | some evs =>
    have := melScan_flags "Controller NVSRAM download completed"
      (fun s => if s.nv_dl_count == 1 then { s with nv_dl_count := 100 } else s)
      (fun s => by dsimp only; split <;> exact ⟨rfl, rfl, rfl⟩) evs st
    simp only [is_nvsram_download_completed, nvsramDownloadEvents]
    cases hr : melScan "Controller NVSRAM download completed"
        (fun s => if s.nv_dl_count == 1 then { s with nv_dl_count := 100 } else s) st evs with
    | ok r' =>
      obtain ⟨s', b, ns⟩ := r'
      rw [hr] at this
      simpa [melOutSt] using this
    | error r' =>
      obtain ⟨s', ns⟩ := r'
      rw [hr] at this
      simpa [melOutSt] using this

theorem embeddedFwLoop_flags (env : Env) :
    ∀ (alive i : Nat) (st : St), FlagsEq st (embeddedFwLoop env st alive i).2 := by
  intro alive
  induction alive with
  | zero => intro i st; exact FlagsEq.refl st
  | succ alive ih =>
    intro i st
    have h1 := is_firmware_activation_started_flags st (env.fwMel i)
    simp only [embeddedFwLoop]
    split
    · exact h1
    · exact h1.trans (ih (i + 1) _)

theorem embeddedNvLoop_flags (env : Env) :
    ∀ (alive i : Nat) (st : St), FlagsEq st (embeddedNvLoop env st alive i).2 := by
  intro alive
  induction alive with
  | zero => intro i st; exact FlagsEq.refl st
  | succ alive ih =>
    intro i st
    have h1 := is_nvsram_download_completed_flags st (env.nvMel i)
    simp only [embeddedNvLoop]
    split
    · exact h1
    · exact h1.trans (ih (i + 1) _)

/-! ## C8: event-poll failures are swallowed -/

/-- C8 (counterexample): a response whose second event is malformed is
swallowed (the poll returns, reporting no milestone), but the events before
the malformed entry were already consumed — the cursor has advanced from
`-1` to `6` — so the poll did *not* behave as if no new events had arrived
that tick. -/
theorem C8_counterexample :
    is_firmware_activation_started {}
        (some [⟨some "A", some 5, some "x"⟩, ⟨none, none, none⟩]) =
      ({ start_mel_event := 6 }, false, [5]) ∧
    ({ start_mel_event := 6 } : St) ≠ ({} : St) := by decide

/-- The environment of the C8 scenario run: embedded topology, a firmware
bundle requiring an upgrade, with the MEL responses and the upload-process
lifetime left completely arbitrary. -/
def envC8 (mel : Nat → Option (List MelEvent)) (alive : Nat) : Env :=
  { baseEnv with
    firmware := some bundleFile
    bundleCompat := some ⟨true, true, [⟨"m", "08.50.00.00", "08.42.00.00"⟩]⟩
    fwMel := mel
    fwUploadAlive := alive }

set_option maxRecDepth 4000 in
/-- C8 (amended): an event-log fetch failure never fails the run.  A raising
`mel-events` request leaves the state untouched and reports no milestone
(first two conjuncts); and a whole embedded upgrade run succeeds with
`changed = true` whatever the event-log endpoint returns — raising,
malformed, or well-formed — at every tick (third conjunct). -/
theorem C8_mel_failures_swallowed :
    (∀ st : St, is_firmware_activation_started st none = (st, false, [])) ∧
    (∀ st : St, is_nvsram_download_completed st none = (st, false, [])) ∧
    (∀ (mel : Nat → Option (List MelEvent)) (alive : Nat),
      (applyRun (envC8 mel alive)).2 = .exited true true) := by
  refine ⟨fun st => rfl, fun st => rfl, ?_⟩
  intro mel alive
  have hc : embedded_check_bundle_compatibility {}
      (some ⟨true, true, [⟨"m", "08.50.00.00", "08.42.00.00"⟩]⟩) =
      .ok { firmware_upgrade_required := true } := by decide
  obtain ⟨f1, f2, f3⟩ :=
    embeddedFwLoop_flags (envC8 mel alive) alive 0 { firmware_upgrade_required := true }
  simp only [applyRun, is_upgrade_in_progress, checkPhase, embedded_check_compatibility, embedded_check_nv_part, embedded_check_fw_part,
    upgradePhase, embedded_upgrade, envC8, baseEnv, hc]
  simp only [envC8, baseEnv] at f1 f2
  simp [f1, f2]

/-! ## C9: the embedded completion wait with a single artifact supplied -/

theorem wfws_iter_fw_only (f : FwFile) (r : Option SaResp)
    (hf : ∀ k, firmware_version (some f) ≠ .error (.fail k)) :
    wait_for_web_services_iter (some f) none r = .swallowed ∨
    wait_for_web_services_iter (some f) none r = .noMatch := by
  cases r with
  | none => left; rfl
  | some r =>
    simp only [wait_for_web_services_iter]
    cases hbd : r.bundleDisplay with
    | none => left; rfl
    | some bd =>
      dsimp only
      by_cases hrc : (r.rc == 200) = true
      · rw [if_pos hrc]
        cases hfv : firmware_version (some f) with
        | error e =>
          cases e with
          | exc => left; rfl
          | fail k => exact absurd hfv (hf k)
        | ok fv =>
          dsimp only
          by_cases hm : (fv == some bd) = true
          · rw [if_pos hm]
            cases hnv : r.nvsramVersion with
            | none => left; rfl
            | some nvs => left; rfl
          · rw [if_neg hm]; right; rfl
      · rw [if_neg hrc]; right; rfl

theorem wfws_iter_nv_only (nv : Option FwFile) (r : Option SaResp) :
    wait_for_web_services_iter none nv r = .swallowed ∨
    wait_for_web_services_iter none nv r = .noMatch := by
  cases r with
  | none => left; rfl
  | some r =>
    simp only [wait_for_web_services_iter]
    cases hbd : r.bundleDisplay with
    | none => left; rfl
    | some bd =>
      dsimp only
      by_cases hrc : (r.rc == 200) = true
      · rw [if_pos hrc]; left; rfl
      · rw [if_neg hrc]; right; rfl

theorem wait_timeout_of_iter (fw nv : Option FwFile)
    (h : ∀ r, wait_for_web_services_iter fw nv r = .swallowed ∨
      wait_for_web_services_iter fw nv r = .noMatch) :
    ∀ (fuel : Nat) (resps : List (Option SaResp)),
    (wait_for_web_services fw nv fuel resps).2 = .error (.fail .webServicesTimeout) := by
  intro fuel
  induction fuel with
  | zero => intro resps; rfl
  | succ fuel ih =>
    intro resps
    cases resps with
    | nil => rcases h none with hi | hi <;> simp [wait_for_web_services, hi, ih []]
    | cons r rest => rcases h r with hi | hi <;> simp [wait_for_web_services, hi, ih rest]

theorem drop_tail_comm {α : Type} (l : List α) (i : Nat) : l.tail.drop i = l.drop (i + 1) := by
  cases l <;> simp

theorem wait_success_characterisation (fw nv : Option FwFile) :
    ∀ (fuel : Nat) (resps : List (Option SaResp)),
    (wait_for_web_services fw nv fuel resps).2 = .ok () →
    ∃ i, wait_for_web_services_iter fw nv ((resps.drop i).headD none) = .success := by
  intro fuel
  induction fuel with
  | zero => intro resps h; exact absurd h (by simp [wait_for_web_services])
  | succ fuel ih =>
    intro resps h
    cases resps with
    | nil =>
      cases hi : wait_for_web_services_iter fw nv none with
      | success => exact ⟨0, by simpa using hi⟩
      | modFail k => simp [wait_for_web_services, hi] at h
      | swallowed =>
        simp only [wait_for_web_services, hi] at h
        obtain ⟨i, hsi⟩ := ih [] h
        exact ⟨i + 1, by simpa using hsi⟩
      | noMatch =>
        simp only [wait_for_web_services, hi] at h
        obtain ⟨i, hsi⟩ := ih [] h
        exact ⟨i + 1, by simpa using hsi⟩
    | cons r rest =>
      cases hi : wait_for_web_services_iter fw nv r with
      | success => exact ⟨0, by simpa using hi⟩
      | modFail k => simp [wait_for_web_services, hi] at h
      | swallowed =>
        simp only [wait_for_web_services, List.headD_cons, List.tail_cons, hi] at h
        obtain ⟨i, hsi⟩ := ih rest h
        exact ⟨i + 1, by simpa using hsi⟩
      | noMatch =>
        simp only [wait_for_web_services, List.headD_cons, List.tail_cons, hi] at h
        obtain ⟨i, hsi⟩ := ih rest h
        exact ⟨i + 1, by simpa using hsi⟩

theorem wfws_iter_success_match (fw nv : Option FwFile) (r0 : Option SaResp)
    (h : wait_for_web_services_iter fw nv r0 = .success) :
    ∃ r bd nvs, r0 = some r ∧ (r.rc == 200) = true ∧
      r.bundleDisplay = some bd ∧ r.nvsramVersion = some nvs ∧
      firmware_version fw = .ok (some bd) ∧ nvsram_version nv = .ok nvs := by
  cases r0 with
  | none => exact absurd h (by simp [wait_for_web_services_iter])
  | some r =>
    simp only [wait_for_web_services_iter] at h
    cases hbd : r.bundleDisplay with
    | none => rw [hbd] at h; exact absurd h (by simp)
    | some bd =>
      rw [hbd] at h
      dsimp only at h
      by_cases hrc : (r.rc == 200) = true
      · rw [if_pos hrc] at h
        cases hfv : firmware_version fw with
        | error e =>
          rw [hfv] at h
          cases e with
          | exc => exact absurd h (by simp)
          | fail k => exact absurd h (by simp)
        | ok fv =>
          rw [hfv] at h
          dsimp only at h
          by_cases hm : (fv == some bd) = true
          · rw [if_pos hm] at h
            cases hnv : r.nvsramVersion with
            | none => rw [hnv] at h; exact absurd h (by simp)
            | some nvs =>
              rw [hnv] at h
              dsimp only at h
              cases hnvv : nvsram_version nv with
              | error e =>
                rw [hnvv] at h
                cases e with
                | exc => exact absurd h (by simp)
                | fail k => exact absurd h (by simp)
              | ok nvv =>
                rw [hnvv] at h
                dsimp only at h
                by_cases hq : (nvs == nvv) = true
                · refine ⟨r, bd, nvs, rfl, hrc, hbd, hnv, ?_, ?_⟩
                  · rw [beq_iff_eq.mp hm]
                  · rw [beq_iff_eq.mp hq]
                · rw [if_neg hq] at h
                  exact absurd h (by simp)
          · rw [if_neg hm] at h
            exact absurd h (by simp)
      · rw [if_neg hrc] at h
        exact absurd h (by simp)

/-- C9 (counterexample): an iteration of the completion wait in a
firmware-only run where the server's `bundleDisplay` does not match: the
conjunction short-circuits to `False` without invoking the nvsram
extractor, so the comparison does *not* raise on this iteration. -/
theorem C9_counterexample :
    wait_for_web_services_iter (some bundleFile) none (some ⟨200, some "XX", some "YY"⟩) =
      .noMatch := by decide

/-- The C9 scenario environment: embedded topology, firmware only,
`wait_for_completion = true`, with arbitrary `/sa/saData` responses. -/
def envC9 (saRs : List (Option SaResp)) : Env :=
  { baseEnv with
    firmware := some bundleFile
    bundleCompat := some ⟨true, true, [⟨"m", "08.50.00.00", "08.42.00.00"⟩]⟩
    wait_for_completion := true
    saResponses := saRs }

set_option maxRecDepth 4000 in
/-- C9 (amended): the completion wait declares success only when a single
attribute-query response matches both extracted versions simultaneously
(first conjunct); with exactly one artifact supplied every iteration either
raises (the absent artifact's extractor, invoked on a missing path) or
compares unequal, so the wait never succeeds and — provided the supplied
firmware file itself parses — the run always ends in the 15-minute
(180 × 5 s) timeout failure, regardless of the server's responses
(remaining conjuncts). -/
theorem C9_single_artifact_wait :
    (∀ (fw nv : Option FwFile) (fuel : Nat) (resps : List (Option SaResp)),
      (wait_for_web_services fw nv fuel resps).2 = .ok () →
      ∃ i r bd nvs, (resps.drop i).headD none = some r ∧ (r.rc == 200) = true ∧
        r.bundleDisplay = some bd ∧ r.nvsramVersion = some nvs ∧
        firmware_version fw = .ok (some bd) ∧ nvsram_version nv = .ok nvs) ∧
    (∀ (f : FwFile) (resps : List (Option SaResp)),
      (∀ k, firmware_version (some f) ≠ .error (.fail k)) →
      (wait_for_web_services (some f) none 180 resps).2 =
        .error (.fail .webServicesTimeout)) ∧
    (∀ (nv : Option FwFile) (resps : List (Option SaResp)),
      (wait_for_web_services none nv 180 resps).2 =
        .error (.fail .webServicesTimeout)) ∧
    (∀ saRs : List (Option SaResp),
      (applyRun (envC9 saRs)).2 = .failed .webServicesTimeout) := by
  refine ⟨?_, ?_, ?_, ?_⟩
  · intro fw nv fuel resps h
    obtain ⟨i, hi⟩ := wait_success_characterisation fw nv fuel resps h
    obtain ⟨r, bd, nvs, hr, h1, h2, h3, h4, h5⟩ :=
      wfws_iter_success_match fw nv _ hi
    exact ⟨i, r, bd, nvs, hr, h1, h2, h3, h4, h5⟩
  · intro f resps hf
    exact wait_timeout_of_iter (some f) none (fun r => wfws_iter_fw_only f r hf) 180 resps
  · intro nv resps
    exact wait_timeout_of_iter none nv (wfws_iter_nv_only nv) 180 resps
  · intro saRs
    have hc : embedded_check_bundle_compatibility {}
        (some ⟨true, true, [⟨"m", "08.50.00.00", "08.42.00.00"⟩]⟩) =
        .ok { firmware_upgrade_required := true } := by decide
    have hfv : firmware_version (some bundleFile) = .ok (some "08.42.30.00") := by decide
    have hw : (wait_for_web_services (some bundleFile) none 180 saRs).2 =
        .error (.fail .webServicesTimeout) :=
      wait_timeout_of_iter (some bundleFile) none
        (fun r => wfws_iter_fw_only bundleFile r
          (fun k h => by rw [hfv] at h; cases h)) 180 saRs
    simp only [applyRun, is_upgrade_in_progress, checkPhase, embedded_check_compatibility, embedded_check_nv_part, embedded_check_fw_part,
      upgradePhase, embedded_upgrade, envC9, baseEnv, hc]
    cases hwr : wait_for_web_services (some bundleFile) none 180 saRs with
    | mk cs res =>
      have : res = .error (.fail .webServicesTimeout) := by
        have := hw
        rw [hwr] at this
        exact this
      subst this
      simp [RunStop.toOutcome]

/-- Witness for `C9_single_artifact_wait` at concrete inputs. -/
theorem C9_witness :
    (wait_for_web_services (some bundleFile) none 180 []).2 =
      .error (.fail .webServicesTimeout) ∧
    (applyRun (envC9 [some ⟨200, some "08.42.30.00", some "X"⟩])).2 =
      .failed .webServicesTimeout :=
  ⟨C9_single_artifact_wait.2.1 bundleFile []
      (fun k h => by
        rw [show firmware_version (some bundleFile) = .ok (some "08.42.30.00") from by decide]
          at h
        cases h),
   C9_single_artifact_wait.2.2.2 [some ⟨200, some "08.42.30.00", some "X"⟩]⟩

/-! ## C2: downgrades are rejected before any upload or activation -/

theorem splitOnPred_ne_nil (p : Char → Bool) : ∀ l, splitOnPred p l ≠ []
  | [] => by simp [splitOnPred]
  | x :: xs => by
    simp only [splitOnPred]
    split
    · simp
    · cases h : splitOnPred p xs <;> simp

theorem pySplit_ne_nil (c : Char) (s : Str) : pySplit c s ≠ [] := by
  unfold pySplit splitOnChar
  intro h
  exact splitOnPred_ne_nil _ s.data (List.map_eq_nil_iff.mp h)

/-- `checkBundleModule` either succeeds or rejects a downgrade — the
`IndexError` branch of the `[:2][1]` indexing is unreachable. -/
theorem checkBundleModule_shape (m : ModuleVersions) :
    (∃ b, checkBundleModule m = .ok b) ∨
    checkBundleModule m = .error (.fail .downgradeEmbedded) := by
  cases hbm : pySplit '.' m.bundledVersion with
  | nil => exact absurd hbm (pySplit_ne_nil _ _)
  | cons b0 bs =>
    cases hom : pySplit '.' m.onboardVersion with
    | nil => exact absurd hom (pySplit_ne_nil _ _)
    | cons o0 os =>
      simp only [checkBundleModule, hbm, hom]
      split
      case isFalse => exact .inl ⟨false, rfl⟩
      case isTrue hdif =>
        by_cases hlt : pyLt b0 o0 = true
        · rw [if_pos hlt]; exact .inr rfl
        · rw [if_neg hlt]
          by_cases heq : (b0 == o0) = true
          · rw [if_pos heq]
            cases bs with
            | nil =>
              cases os with
              | nil =>
                exfalso
                simp only [List.length_cons, List.length_nil, Nat.min_self, bne_iff_ne,
                  ne_eq] at hdif
                simp [beq_iff_eq.mp heq] at hdif
              | cons o1 os' =>
                exfalso
                have hn : min ([b0] : List Str).length (o0 :: o1 :: os').length = 1 := by
                  simp
                rw [hn] at hdif
                simp only [List.take, bne_iff_ne, ne_eq] at hdif
                simp [beq_iff_eq.mp heq] at hdif
            | cons b1 bs' =>
              cases os with
              | nil =>
                exfalso
                have hn : min (b0 :: b1 :: bs').length ([o0] : List Str).length = 1 := by
                  simp
                rw [hn] at hdif
                simp only [List.take, bne_iff_ne, ne_eq] at hdif
                simp [beq_iff_eq.mp heq] at hdif
              | cons o1 os' =>
                dsimp only
                by_cases hlt1 : pyLt b1 o1 = true
                · rw [if_pos hlt1]; exact .inr rfl
                · rw [if_neg hlt1]; exact .inl ⟨true, rfl⟩
          · rw [if_neg heq]
            exact .inl ⟨true, rfl⟩

/-- The claim's downgrade condition on a module: the onboard major.minor
(the first two dotted segments, in the byte-string order the code uses)
exceeds the bundled major.minor. -/
def ModuleDowngrade (m : ModuleVersions) : Prop :=
  ∃ o0 o1 orest b0 b1 brest,
    pySplit '.' m.onboardVersion = o0 :: o1 :: orest ∧
    pySplit '.' m.bundledVersion = b0 :: b1 :: brest ∧
    (pyLt b0 o0 = true ∨ (b0 = o0 ∧ pyLt b1 o1 = true))

theorem checkBundleModule_downgrade (m : ModuleVersions) (h : ModuleDowngrade m) :
    checkBundleModule m = .error (.fail .downgradeEmbedded) := by
  obtain ⟨o0, o1, orest, b0, b1, brest, hom, hbm, hex⟩ := h
  have hne : b0 ≠ o0 ∨ (b0 = o0 ∧ b1 ≠ o1) := by
    rcases hex with h | ⟨h1, h2⟩
    · exact .inl (pyLt_ne h)
    · exact .inr ⟨h1, pyLt_ne h2⟩
  simp only [checkBundleModule, hbm, hom]
  have hdif : ((b0 :: b1 :: brest).take
      (min (b0 :: b1 :: brest).length (o0 :: o1 :: orest).length) !=
      (o0 :: o1 :: orest).take
      (min (b0 :: b1 :: brest).length (o0 :: o1 :: orest).length)) = true := by
    have hk : ∃ k, min (b0 :: b1 :: brest).length (o0 :: o1 :: orest).length = k + 2 := by
      refine ⟨min brest.length orest.length, ?_⟩
      simp only [List.length_cons]
      omega
    obtain ⟨k, hk⟩ := hk
    rw [hk]
    simp only [List.take, bne_iff_ne, ne_eq]
    intro hcontra
    injection hcontra with h0 hrest
    injection hrest with h1 hrest2
    rcases hne with hne | ⟨he, hne⟩
    · exact hne h0
    · exact hne h1
  rw [if_pos hdif]
  rcases hex with hlt | ⟨heq, hlt1⟩
  · rw [if_pos hlt]
  · have hnlt : pyLt b0 o0 = false := by rw [heq]; exact pyLt_irrefl o0
    rw [if_neg (by simp [hnlt]), if_pos (by simp [heq]), if_pos hlt1]

theorem checkBundleModules_downgrade :
    ∀ (l : List ModuleVersions) (st : St), (∃ m ∈ l, ModuleDowngrade m) →
    checkBundleModules st l = .error (.fail .downgradeEmbedded) := by
  intro l
  induction l with
  | nil => intro st h; simp at h
  | cons m rest ih =>
    intro st h
    rcases checkBundleModule_shape m with ⟨b, hb⟩ | hb
    · rcases h with ⟨m', hm', hd⟩
      rcases List.mem_cons.mp hm' with rfl | hm'
      · rw [checkBundleModule_downgrade m' hd] at hb
        cases hb
      · simp only [checkBundleModules, hb]
        exact ih _ ⟨m', hm', hd⟩
    · simp only [checkBundleModules, hb]

theorem pyLt_asymm_false {s t : Str} (h : pyLt s t = true) : pyLt t s = false :=
  pyLt_asymm h

/-- C2: when the on-system major.minor exceeds the target major.minor on
the first two dotted segments (in the byte-string order the code compares
with), the run fails with the downgrade `fail_json` before any upload or
activation call, in both topologies.
First conjunct — direct topology: some module of the embedded bundle
compatibility response has onboard exceeding bundled; the run stops at the
compatibility check with `Downgrades are not permitted`, its trace being
exactly the one compatibility-check call.
Second conjunct — indirect topology: the system's current firmware version
exceeds the locally extracted target version; the run stops inside
`proxy_check_upgrade_required`, its trace being the status query and the
one version query. -/
theorem C2_downgrade_rejected :
    (∀ (env : Env) (f : FwFile) (c : CompatResp) (m : ModuleVersions),
      env.isProxy = false → env.nvsram = none → env.firmware = some f →
      env.bundleCompat = some c → c.signatureTestingPassed = true →
      c.fileCompatible = true → m ∈ c.versionContents → ModuleDowngrade m →
      applyRun env = ([Call.embBundleCompatCheck], .failed .downgradeEmbedded)) ∧
    (∀ (env : Env) (f : FwFile) (cur v : Str)
      (c0 c1 : Str) (cr : List Str) (v0 v1 : Str) (vr : List Str),
      env.isProxy = true → env.upgradeRunning = some false → env.firmware = some f →
      is_firmware_bundled (some f) = .ok true → env.currentBundleDisplay = some cur →
      firmware_version (some f) = .ok (some v) →
      pySplit '.' cur = c0 :: c1 :: cr → pySplit '.' v = v0 :: v1 :: vr →
      (pyLt v0 c0 = true ∨ (v0 = c0 ∧ pyLt v1 c1 = true)) →
      applyRun env =
        ([Call.getCfwUpgradeStatus, Call.bundleDisplayQuery], .failed .downgradeProxy)) := by
  constructor
  · intro env f c m hp hnv hfw hbc hsig hcompat hm hd
    have hloop : checkBundleModules {} c.versionContents =
        .error (.fail .downgradeEmbedded) :=
      checkBundleModules_downgrade c.versionContents {} ⟨m, hm, hd⟩
    have hcheck : embedded_check_bundle_compatibility {} env.bundleCompat =
        .error (.fail .downgradeEmbedded) := by
      rw [hbc]
      simp only [embedded_check_bundle_compatibility, hsig, hcompat, hloop]
      rfl
    simp only [applyRun, is_upgrade_in_progress, hp, checkPhase,
      embedded_check_compatibility, embedded_check_nv_part, embedded_check_fw_part,
      hnv, hfw, hcheck]
    simp [RunStop.toOutcome]
  · intro env f cur v c0 c1 cr v0 v1 vr hp hrun hfw hbundled hcur hver hsc hsv hex
    have hcv : (cur != v) = true := by
      simp only [bne_iff_ne, ne_eq]
      intro he
      subst he
      rw [hsc] at hsv
      injection hsv with h0 hrest
      injection hrest with h1 _
      rcases hex with h | ⟨h1', h2⟩
      · rw [h0] at h
        simp [pyLt_irrefl] at h
      · rw [h1] at h2
        simp [pyLt_irrefl] at h2
    have hcond : proxy_check_upgrade_required env {} =
        ([Call.bundleDisplayQuery], .error (.fail .downgradeProxy)) := by
      rcases hex with h | ⟨heq, hlt⟩
      · have h1 : pyLt c0 v0 = false := pyLt_asymm_false h
        have h2 : (c0 == v0) = false := by
          simp only [beq_eq_false_iff_ne, ne_eq]
          exact fun he => pyLt_ne h he.symm
        simp [proxy_check_upgrade_required, proxy_check_fw_required_part, hfw, hbundled, hcur, hver, hcv, hsc, hsv,
          h1, h2]
      · have h1 : pyLt c0 v0 = false := by
          rw [← heq]
          exact pyLt_irrefl v0
        have h2 : (c0 == v0) = true := by
          rw [← heq]
          simp
        have h3 : pyLe c1 v1 = false := by
          unfold pyLe
          have ha : pyLt c1 v1 = false := pyLt_asymm_false hlt
          have hb : (c1 == v1) = false := by
            simp only [beq_eq_false_iff_ne, ne_eq]
            exact fun he => pyLt_ne hlt he.symm
          simp [ha, hb]
        simp [proxy_check_upgrade_required, proxy_check_fw_required_part, hfw, hbundled, hcur, hver, hcv, hsc, hsv,
          h1, h2, h3]
    simp only [applyRun, is_upgrade_in_progress, hp, hrun, checkPhase, hcond]
    simp [RunStop.toOutcome]

/-- Witness for `C2_downgrade_rejected`: an embedded run whose bundle
module would downgrade `09.1 → 08.5`, and a proxy run whose system runs
`09.00.00.00` while the bundle carries `08.42.30.00`. -/
theorem C2_witness :
    applyRun { baseEnv with
        firmware := some bundleFile
        bundleCompat := some ⟨true, true, [⟨"m", "08.5", "09.1"⟩]⟩ } =
      ([Call.embBundleCompatCheck], .failed .downgradeEmbedded) ∧
    applyRun { baseEnv with
        isProxy := true
        firmware := some bundleFile
        currentBundleDisplay := some "09.00.00.00" } =
      ([Call.getCfwUpgradeStatus, Call.bundleDisplayQuery], .failed .downgradeProxy) :=
  ⟨C2_downgrade_rejected.1 _ bundleFile ⟨true, true, [⟨"m", "08.5", "09.1"⟩]⟩
      ⟨"m", "08.5", "09.1"⟩ rfl rfl rfl rfl rfl rfl (by decide)
      ⟨"09", "1", [], "08", "5", [], by decide, by decide, by decide⟩,
   C2_downgrade_rejected.2 _ bundleFile "09.00.00.00" "08.42.30.00"
      "09" "00" ["00", "00"] "08" "42" ["30", "00"]
      rfl rfl rfl (by decide) rfl (by decide) (by decide) (by decide)
      (by decide)⟩

/-! ## C4: what the upgrade-required decision actually compares -/

/-- An embedded check-mode run whose module versions agree on the first two
dotted segments but differ at the third. -/
def envC4 : Env :=
  { baseEnv with
    firmware := some bundleFile
    check_mode := true
    bundleCompat := some ⟨true, true, [⟨"m", "1.2.3", "1.2.4"⟩]⟩ }

/-- A proxy check-mode run whose current and target versions agree on the
first two dotted segments but differ at the third. -/
def envC4p : Env :=
  { baseEnv with
    isProxy := true
    check_mode := true
    firmware := some bundleFile
    currentBundleDisplay := some "08.42.40.00"
    cfwFiles := some ["fw.dlp"]
    fwCompatAttempts := [some [some ⟨false, some ["fw.dlp"]⟩]] }

/-- C4 (counterexample): in both topologies the decision is *not* "differ
when truncated to two dotted segments".  Direct: module versions `1.2.3`
vs `1.2.4` agree on their first two segments, yet the run reports
`changed = true`.  Indirect: `08.42.30.00` vs `08.42.40.00` agree on their
first two segments, yet the run reports `changed = true`. -/
theorem C4_counterexample :
    (applyRun envC4 = ([Call.embBundleCompatCheck], .exited true false) ∧
      (pySplit '.' "1.2.3").take 2 = (pySplit '.' "1.2.4").take 2) ∧
    ((applyRun envC4p).2 = .exited true false ∧
      (pySplit '.' "08.42.30.00").take 2 = (pySplit '.' "08.42.40.00").take 2) := by
  decide

theorem moduleDowngrade_iff (m : ModuleVersions) (b0 b1 : Str) (br : List Str)
    (o0 o1 : Str) (orest : List Str)
    (hsb : pySplit '.' m.bundledVersion = b0 :: b1 :: br)
    (hso : pySplit '.' m.onboardVersion = o0 :: o1 :: orest) :
    ModuleDowngrade m ↔ (pyLt b0 o0 = true ∨ (b0 = o0 ∧ pyLt b1 o1 = true)) := by
  constructor
  · rintro ⟨o0', o1', or', b0', b1', br', hso', hsb', hx⟩
    rw [hso] at hso'
    rw [hsb] at hsb'
    injection hso' with e1 t1
    injection t1 with e2 _
    injection hsb' with e3 t2
    injection t2 with e4 _
    subst e1
    subst e2
    subst e3
    subst e4
    exact hx
  · intro hx
    exact ⟨o0, o1, orest, b0, b1, br, hso, hsb, hx⟩

theorem checkBundleModule_ok_of_no_downgrade (mod bv ov : Str)
    (b0 b1 : Str) (br : List Str) (o0 o1 : Str) (orest : List Str)
    (hsb : pySplit '.' bv = b0 :: b1 :: br)
    (hso : pySplit '.' ov = o0 :: o1 :: orest)
    (hnd : ¬ ModuleDowngrade ⟨mod, bv, ov⟩) :
    checkBundleModule ⟨mod, bv, ov⟩ =
      .ok ((b0 :: b1 :: br).take (min (b0 :: b1 :: br).length (o0 :: o1 :: orest).length) !=
        (o0 :: o1 :: orest).take (min (b0 :: b1 :: br).length (o0 :: o1 :: orest).length)) := by
  have hn0 : pyLt b0 o0 = false := by
    by_contra h
    rw [Bool.not_eq_false] at h
    exact hnd ⟨o0, o1, orest, b0, b1, br, hso, hsb, .inl h⟩
  have hn1 : (b0 == o0) = true → pyLt b1 o1 = false := by
    intro he
    by_contra h
    rw [Bool.not_eq_false] at h
    exact hnd ⟨o0, o1, orest, b0, b1, br, hso, hsb, .inr ⟨beq_iff_eq.mp he, h⟩⟩
  simp only [checkBundleModule, hsb, hso]
  split
  case isFalse hdif =>
    rw [Bool.not_eq_true] at hdif
    rw [hdif]
  case isTrue hdif =>
    rw [hdif]
    try dsimp only
    rw [if_neg (by simp [hn0])]
    by_cases he : (b0 == o0) = true
    · rw [if_pos he]
      try dsimp only
      rw [if_neg (by simp [hn1 he])]
    · rw [if_neg he]

set_option maxRecDepth 8000 in
/-- C4 (amended): the firmware `upgrade_required` decision is:
direct topology — true iff the two versions differ when truncated to the
*common minimum* number of dotted segments (observed through a check-mode
run's `changed` output, given the module does not trip the downgrade
rejection);
indirect topology — true iff the *full* version strings differ (given the
difference is not a downgrade, with the compatibility check succeeding). -/
theorem C4_upgrade_required_characterisation :
    (∀ (env : Env) (f : FwFile) (mod bv ov : Str)
      (b0 b1 : Str) (br : List Str) (o0 o1 : Str) (orest : List Str),
      env.isProxy = false → env.check_mode = true → env.nvsram = none →
      env.firmware = some f →
      env.bundleCompat = some ⟨true, true, [⟨mod, bv, ov⟩]⟩ →
      pySplit '.' bv = b0 :: b1 :: br →
      pySplit '.' ov = o0 :: o1 :: orest →
      ¬ ModuleDowngrade ⟨mod, bv, ov⟩ →
      applyRun env = ([Call.embBundleCompatCheck],
        .exited ((b0 :: b1 :: br).take
            (min (b0 :: b1 :: br).length (o0 :: o1 :: orest).length) !=
          (o0 :: o1 :: orest).take
            (min (b0 :: b1 :: br).length (o0 :: o1 :: orest).length)) false)) ∧
    (∀ (env : Env) (f : FwFile) (cur v : Str)
      (c0 c1 : Str) (cr : List Str) (v0 v1 : Str) (vr : List Str),
      env.isProxy = true → env.check_mode = true → env.nvsram = none →
      env.upgradeRunning = some false → env.firmware = some f →
      is_firmware_bundled (some f) = .ok true →
      env.currentBundleDisplay = some cur →
      firmware_version (some f) = .ok (some v) →
      pySplit '.' cur = c0 :: c1 :: cr → pySplit '.' v = v0 :: v1 :: vr →
      (cur ≠ v → (pyLt c0 v0 = true ∨ (c0 = v0 ∧ pyLe c1 v1 = true))) →
      env.cfwFiles = some [f.name] →
      env.fwCompatAttempts = [some [some ⟨false, some [f.name]⟩]] →
      (applyRun env).2 = .exited (cur != v) false) := by
  constructor
  · intro env f mod bv ov b0 b1 br o0 o1 orest hp hcm hnv hfw hbc hsb hso hnd
    have hmod := checkBundleModule_ok_of_no_downgrade mod bv ov b0 b1 br o0 o1 orest
      hsb hso hnd
    have hcheck : embedded_check_bundle_compatibility {} env.bundleCompat =
        .ok { firmware_upgrade_required :=
          ((b0 :: b1 :: br).take
              (min (b0 :: b1 :: br).length (o0 :: o1 :: orest).length) !=
            (o0 :: o1 :: orest).take
              (min (b0 :: b1 :: br).length (o0 :: o1 :: orest).length)) } := by
      rw [hbc]
      simp only [embedded_check_bundle_compatibility, checkBundleModules, hmod]
      rfl
    simp only [applyRun, is_upgrade_in_progress, hp, checkPhase,
      embedded_check_compatibility, embedded_check_nv_part, embedded_check_fw_part,
      hnv, hfw, hcheck, upgradePhase, hcm]
    simp
  · intro env f cur v c0 c1 cr v0 v1 vr hp hcm hnv hrun hfw hbundled hcur hver
      hsc hsv hnd hfiles hatt
    by_cases hev : (cur != v) = true
    · have hcond : proxy_check_upgrade_required env {} =
          ([Call.bundleDisplayQuery], .ok { firmware_upgrade_required := true }) := by
        rcases hnd (by simpa using hev) with h | ⟨heq, hle⟩
        · simp [proxy_check_upgrade_required, proxy_check_fw_required_part, hfw, hbundled, hcur, hver, hev, hsc, hsv,
            h, hnv]
        · have h2 : (c0 == v0) = true := by simp [heq]
          have h1 : pyLt c0 v0 = false := by
            rw [heq]
            exact pyLt_irrefl v0
          simp [proxy_check_upgrade_required, proxy_check_fw_required_part, hfw, hbundled, hcur, hver, hev, hsc, hsv,
            h1, h2, hle, hnv]
      have hupl : proxy_upload_and_check_compatibility env =
          ([Call.cfwFilesList, Call.compatCheckPost, Call.compatCheckPoll], .ok ()) := by
        have hfp : proxy_upload_fw_part env [f.name] =
            ([Call.compatCheckPost, Call.compatCheckPoll], .ok ()) := by
          simp [proxy_upload_fw_part, hfw, hatt,
            proxy_check_firmware_compatibility, fwCompatLoop]
        have hnp : proxy_upload_nv_part env [f.name] = ([], .ok ()) := by
          simp [proxy_upload_nv_part, hnv]
        simp [proxy_upload_and_check_compatibility, hfiles, hfp, hnp]
      simp only [applyRun, is_upgrade_in_progress, hp, hrun, checkPhase, hcond, hupl,
        upgradePhase, hcm]
      simp [hev]
    · have hcond : proxy_check_upgrade_required env {} =
          ([Call.bundleDisplayQuery], .ok {}) := by
        simp only [bne_iff_ne, ne_eq, Decidable.not_not] at hev
        subst hev
        simp [proxy_check_upgrade_required, proxy_check_fw_required_part, hfw, hbundled, hcur, hver, hnv]
      simp only [applyRun, is_upgrade_in_progress, hp, hrun, checkPhase, hcond,
        upgradePhase, hcm]
      simp only [bne_iff_ne, ne_eq, Decidable.not_not] at hev
      subst hev
      simp

/-- Witness for `C4_upgrade_required_characterisation`: module versions
`08.50.1` vs `08.42.9` (direct, required) and `08.42.30.00` vs itself
(proxy, not required). -/
theorem C4_witness :
    applyRun { baseEnv with
        firmware := some bundleFile
        check_mode := true
        bundleCompat := some ⟨true, true, [⟨"m", "08.50.1", "08.42.9"⟩]⟩ } =
      ([Call.embBundleCompatCheck], .exited true false) ∧
    (applyRun { baseEnv with
        isProxy := true
        check_mode := true
        firmware := some bundleFile
        currentBundleDisplay := some "08.42.30.00"
        cfwFiles := some ["fw.dlp"]
        fwCompatAttempts := [some [some ⟨false, some ["fw.dlp"]⟩]] }).2 =
      .exited false false := by
  constructor
  · have h := C4_upgrade_required_characterisation.1
      { baseEnv with
        firmware := some bundleFile
        check_mode := true
        bundleCompat := some ⟨true, true, [⟨"m", "08.50.1", "08.42.9"⟩]⟩ }
      bundleFile "m" "08.50.1" "08.42.9" "08" "50" ["1"] "08" "42" ["9"]
      rfl rfl rfl rfl rfl (by decide) (by decide)
      (by
        rw [moduleDowngrade_iff ⟨"m", "08.50.1", "08.42.9"⟩ "08" "50" ["1"] "08" "42" ["9"]
          (by decide) (by decide)]
        decide)
    simpa using h
  · have h := C4_upgrade_required_characterisation.2
      { baseEnv with
        isProxy := true
        check_mode := true
        firmware := some bundleFile
        currentBundleDisplay := some "08.42.30.00"
        cfwFiles := some ["fw.dlp"]
        fwCompatAttempts := [some [some ⟨false, some ["fw.dlp"]⟩]] }
      bundleFile "08.42.30.00" "08.42.30.00" "08" "42" ["30", "00"] "08" "42" ["30", "00"]
      rfl rfl rfl rfl rfl (by decide) rfl (by decide) (by decide) (by decide)
      (fun h => absurd rfl h) rfl rfl
    simpa using h

/-! ## C3: trace and state lemmas for the check phase -/

theorem is_upgrade_in_progress_calls (env : Env) :
    ∀ c ∈ (is_upgrade_in_progress env).1, c = Call.getCfwUpgradeStatus := by
  intro c hc
  unfold is_upgrade_in_progress at hc
  split at hc <;> simp_all

theorem fwCompatLoop_calls (name : Str) :
    ∀ (fuel : Nat) (polls : List (Option CompatPollResp)) (c : Call),
    c ∈ (fwCompatLoop name fuel polls).1 → c = Call.compatCheckPoll := by
  intro fuel
  induction fuel with
  | zero => intro polls c hc; simp [fwCompatLoop] at hc
  | succ fuel ih =>
    intro polls c hc
    unfold fwCompatLoop at hc
    split at hc
    · rcases List.mem_cons.mp hc with rfl | hc
      · rfl
      · exact ih [] c hc
    · rcases List.mem_cons.mp hc with rfl | hc
      · rfl
      · exact ih _ c hc
    · split at hc
      · split at hc
        · rcases List.mem_cons.mp hc with rfl | hc
          · rfl
          · exact ih _ c hc
        · split at hc <;> simp_all
      · rcases List.mem_cons.mp hc with rfl | hc
        · rfl
        · exact ih _ c hc

theorem nvCompatLoop_calls (name : Str) :
    ∀ (fuel : Nat) (polls : List (Option CompatPollResp)) (c : Call),
    c ∈ (nvCompatLoop name fuel polls).1 → c = Call.compatCheckPoll := by
  intro fuel
  induction fuel with
  | zero => intro polls c hc; simp [nvCompatLoop] at hc
  | succ fuel ih =>
    intro polls c hc
    unfold nvCompatLoop at hc
    split at hc
    · rcases List.mem_cons.mp hc with rfl | hc
      · rfl
      · exact ih [] c hc
    · rcases List.mem_cons.mp hc with rfl | hc
      · rfl
      · exact ih _ c hc
    · split at hc
      · split at hc
        · rcases List.mem_cons.mp hc with rfl | hc
          · rfl
          · exact ih _ c hc
        · split at hc <;> simp_all
      · rcases List.mem_cons.mp hc with rfl | hc
        · rfl
        · exact ih _ c hc

theorem proxy_check_firmware_compatibility_calls (name : Str) :
    ∀ (retries : Nat) (attempts : List CompatAttempt) (c : Call),
    c ∈ (proxy_check_firmware_compatibility name attempts retries).1 →
    c = Call.compatCheckPost ∨ c = Call.compatCheckPoll := by
  intro retries
  induction retries with
  | zero =>
    intro attempts c hc
    unfold proxy_check_firmware_compatibility at hc
    split at hc
    · rcases List.mem_cons.mp hc with rfl | hc
      · exact .inl rfl
      · exact .inr (fwCompatLoop_calls name 12 _ c hc)
    · simp_all
  | succ retries ih =>
    intro attempts c hc
    unfold proxy_check_firmware_compatibility at hc
    split at hc
    · rcases List.mem_cons.mp hc with rfl | hc
      · exact .inl rfl
      · exact .inr (fwCompatLoop_calls name 12 _ c hc)
    · rcases List.mem_cons.mp hc with rfl | hc
      · exact .inl rfl
      · exact ih _ c hc
    · rcases List.mem_cons.mp hc with rfl | hc
      · exact .inl rfl
      · exact ih _ c hc

theorem proxy_check_nvsram_compatibility_calls (name : Str) :
    ∀ (retries : Nat) (attempts : List CompatAttempt) (c : Call),
    c ∈ (proxy_check_nvsram_compatibility name attempts retries).1 →
    c = Call.compatCheckPost ∨ c = Call.compatCheckPoll := by
  intro retries
  induction retries with
  | zero =>
    intro attempts c hc
    unfold proxy_check_nvsram_compatibility at hc
    split at hc
    · rcases List.mem_cons.mp hc with rfl | hc
      · exact .inl rfl
      · exact .inr (nvCompatLoop_calls name 12 _ c hc)
    · simp_all
  | succ retries ih =>
    intro attempts c hc
    unfold proxy_check_nvsram_compatibility at hc
    split at hc
    · rcases List.mem_cons.mp hc with rfl | hc
      · exact .inl rfl
      · exact .inr (nvCompatLoop_calls name 12 _ c hc)
    · rcases List.mem_cons.mp hc with rfl | hc
      · exact .inl rfl
      · exact ih _ c hc
    · rcases List.mem_cons.mp hc with rfl | hc
      · exact .inl rfl
      · exact ih _ c hc

/-- The calls of the per-artifact upload blocks are proxy uploads and the
async compatibility check. -/
theorem proxy_upload_fw_part_calls (env : Env) (files : List Str) :
    ∀ c ∈ (proxy_upload_fw_part env files).1,
    c = Call.proxyUpload ∨ c = Call.compatCheckPost ∨ c = Call.compatCheckPoll := by
  intro c hc
  unfold proxy_upload_fw_part at hc
  split at hc
  · simp_all
  · rename_i f hfe
    split at hc
    · rcases proxy_check_firmware_compatibility_calls f.name 10 _ c hc with h | h
      · exact .inr (.inl h)
      · exact .inr (.inr h)
    · split at hc
      · rcases List.mem_cons.mp hc with rfl | hc
        · exact .inl rfl
        · rcases proxy_check_firmware_compatibility_calls f.name 10 _ c hc with h | h
          · exact .inr (.inl h)
          · exact .inr (.inr h)
      · simp_all

theorem proxy_upload_nv_part_calls (env : Env) (files : List Str) :
    ∀ c ∈ (proxy_upload_nv_part env files).1,
    c = Call.proxyUpload ∨ c = Call.compatCheckPost ∨ c = Call.compatCheckPoll := by
  intro c hc
  unfold proxy_upload_nv_part at hc
  split at hc
  · simp_all
  · rename_i f hfe
    split at hc
    · rcases proxy_check_nvsram_compatibility_calls f.name 10 _ c hc with h | h
      · exact .inr (.inl h)
      · exact .inr (.inr h)
    · split at hc
      · rcases List.mem_cons.mp hc with rfl | hc
        · exact .inl rfl
        · rcases proxy_check_nvsram_compatibility_calls f.name 10 _ c hc with h | h
          · exact .inr (.inl h)
          · exact .inr (.inr h)
      · simp_all

/-- The calls of `proxy_upload_and_check_compatibility` are the listing,
uploads *to the proxy*, and the async compatibility check — never a
controller upload or activation. -/
theorem proxy_upload_and_check_compatibility_calls (env : Env) :
    ∀ c ∈ (proxy_upload_and_check_compatibility env).1,
    c = Call.cfwFilesList ∨ c = Call.proxyUpload ∨ c = Call.compatCheckPost ∨
      c = Call.compatCheckPoll := by
  intro c hc
  unfold proxy_upload_and_check_compatibility at hc
  split at hc
  · simp_all
  · rename_i files _
    split at hc
    · rcases List.mem_cons.mp hc with rfl | hc
      · exact .inl rfl
      · exact .inr (proxy_upload_fw_part_calls env files c hc)
    · rcases List.mem_cons.mp hc with rfl | hc
      · exact .inl rfl
      · rcases List.mem_append.mp hc with hc | hc
        · exact .inr (proxy_upload_fw_part_calls env files c hc)
        · exact .inr (proxy_upload_nv_part_calls env files c hc)

theorem embedded_check_nvsram_state (st : St) (r : Option CompatResp) (st' : St)
    (h : embedded_check_nvsram_compatibility st r = .ok st') :
    st'.upgrade_in_progress = st.upgrade_in_progress ∧
    st'.firmware_upgrade_required = st.firmware_upgrade_required := by
  unfold embedded_check_nvsram_compatibility at h
  split at h
  · cases h
  · split at h
    · cases h
    · split at h
      · cases h
      · injection h with h
        subst h
        exact ⟨rfl, rfl⟩

theorem checkBundleModules_state :
    ∀ (l : List ModuleVersions) (st st' : St), checkBundleModules st l = .ok st' →
    st'.upgrade_in_progress = st.upgrade_in_progress ∧
    st'.nvsram_upgrade_required = st.nvsram_upgrade_required := by
  intro l
  induction l with
  | nil =>
    intro st st' h
    simp only [checkBundleModules] at h
    injection h with h
    subst h
    exact ⟨rfl, rfl⟩
  | cons m rest ih =>
    intro st st' h
    simp only [checkBundleModules] at h
    split at h
    · cases h
    · rename_i req _
      have hres := ih _ st' h
      exact hres

theorem embedded_check_bundle_state (st : St) (r : Option CompatResp) (st' : St)
    (h : embedded_check_bundle_compatibility st r = .ok st') :
    st'.upgrade_in_progress = st.upgrade_in_progress ∧
    st'.nvsram_upgrade_required = st.nvsram_upgrade_required := by
  unfold embedded_check_bundle_compatibility at h
  split at h
  · cases h
  · split at h
    · cases h
    · split at h
      · cases h
      · split at h
        · rename_i st1 hloop
          injection h with h
          subst h
          exact checkBundleModules_state _ _ _ hloop
        · cases h
        · cases h

theorem embedded_check_nv_part_state (env : Env) (st st' : St)
    (h : (embedded_check_nv_part env st).2 = .ok st') :
    st'.upgrade_in_progress = st.upgrade_in_progress ∧
    st'.firmware_upgrade_required = st.firmware_upgrade_required := by
  unfold embedded_check_nv_part at h
  split at h
  · injection h with h
    subst h
    exact ⟨rfl, rfl⟩
  · exact embedded_check_nvsram_state st env.nvsramCompat st' h

theorem embedded_check_fw_part_state (env : Env) (st st' : St)
    (h : (embedded_check_fw_part env st).2 = .ok st') :
    st'.upgrade_in_progress = st.upgrade_in_progress ∧
    st'.nvsram_upgrade_required = st.nvsram_upgrade_required := by
  unfold embedded_check_fw_part at h
  split at h
  · injection h with h
    subst h
    exact ⟨rfl, rfl⟩
  · exact embedded_check_bundle_state st env.bundleCompat st' h

theorem proxy_check_fw_required_part_state (env : Env) (st : St) (st' : St)
    (h : (proxy_check_fw_required_part env st).2 = .ok st') :
    st'.upgrade_in_progress = st.upgrade_in_progress := by
  unfold proxy_check_fw_required_part at h
  dsimp only at h
  repeat' (first | (split at h) | (dsimp only at h))
  all_goals cases h
  all_goals rfl

theorem proxy_check_upgrade_required_state (env : Env) (st : St) (st' : St)
    (h : (proxy_check_upgrade_required env st).2 = .ok st') :
    st'.upgrade_in_progress = st.upgrade_in_progress := by
  unfold proxy_check_upgrade_required at h
  split at h
  · cases h
  · rename_i st1 hfwp
    split at h
    · injection h with h
      subst h
      exact proxy_check_fw_required_part_state env st st1 hfwp
    · split at h
      · cases h
      · split at h
        · cases h
        · cases h
        · injection h with h
          subst h
          have hbase := proxy_check_fw_required_part_state env st st1 hfwp
          split
          · exact hbase
          · exact hbase

theorem checkPhase_state (env : Env) (tr : List Call) (st : St)
    (h : checkPhase env {} = (tr, .ok st)) : st.upgrade_in_progress = false := by
  unfold checkPhase at h
  split at h
  · unfold embedded_check_compatibility at h
    split at h
    · injection h with h1 h2
      cases h2
    · rename_i st1 hnv
      injection h with h1 h2
      have e1 := (embedded_check_nv_part_state env {} st1 hnv).1
      have e2 := (embedded_check_fw_part_state env st1 st h2).1
      rw [e2, e1]
  · split at h
    · injection h with h1 h2
      cases h2
    · rename_i st1 hok
      split at h
      · injection h with h1 h2
        split at h2
        · cases h2
        · injection h2 with h2
          subst h2
          exact proxy_check_upgrade_required_state env {} st1 hok
      · injection h with h1 h2
        injection h2 with h2
        subst h2
        exact proxy_check_upgrade_required_state env {} st1 hok


/-- The firmware half of the proxy upgrade-required check only queries
version endpoints. -/
theorem proxy_check_fw_required_part_calls (env : Env) (st : St) :
    ∀ c ∈ (proxy_check_fw_required_part env st).1,
    c = Call.bundleDisplayQuery ∨ c = Call.fwVersionQuery := by
  intro c hc
  unfold proxy_check_fw_required_part at hc
  dsimp only at hc
  repeat' (first | (split at hc) | (dsimp only at hc))
  all_goals simp_all

/-- `proxy_check_upgrade_required` only queries version endpoints. -/
theorem proxy_check_upgrade_required_calls (env : Env) (st : St) :
    ∀ c ∈ (proxy_check_upgrade_required env st).1,
    c = Call.bundleDisplayQuery ∨ c = Call.fwVersionQuery ∨
      c = Call.nvsramVersionQuery := by
  intro c hc
  have hmem : c ∈ (proxy_check_fw_required_part env st).1 ∨
      c = Call.nvsramVersionQuery := by
    unfold proxy_check_upgrade_required at hc
    repeat' split at hc
    all_goals
      first
      | exact Or.inl hc
      | (rcases List.mem_append.mp hc with hc | hc
         exacts [Or.inl hc, Or.inr (by simpa using hc)])
  rcases hmem with hc1 | hc1
  · rcases proxy_check_fw_required_part_calls env st c hc1 with h | h
    · exact Or.inl h
    · exact Or.inr (Or.inl h)
  · exact Or.inr (Or.inr hc1)

theorem embedded_check_nv_part_calls (env : Env) (st : St) :
    ∀ c ∈ (embedded_check_nv_part env st).1, c = Call.embNvsramCompatCheck := by
  intro c hc
  unfold embedded_check_nv_part at hc
  split at hc <;> simp_all

theorem embedded_check_fw_part_calls (env : Env) (st : St) :
    ∀ c ∈ (embedded_check_fw_part env st).1, c = Call.embBundleCompatCheck := by
  intro c hc
  unfold embedded_check_fw_part at hc
  split at hc <;> simp_all

/-- The embedded check phase only posts compatibility checks. -/
theorem embedded_check_compatibility_calls (env : Env) (st : St) :
    ∀ c ∈ (embedded_check_compatibility env st).1,
    c = Call.embNvsramCompatCheck ∨ c = Call.embBundleCompatCheck := by
  intro c hc
  unfold embedded_check_compatibility at hc
  split at hc
  · exact Or.inl (embedded_check_nv_part_calls env st c hc)
  · rcases List.mem_append.mp hc with hc | hc
    · exact Or.inl (embedded_check_nv_part_calls env st c hc)
    · exact Or.inr (embedded_check_fw_part_calls env _ c hc)

/-- Whatever the topology and the server responses, the check phase never
uploads to or activates on the controller (at most it stages files on the
proxy). -/
theorem checkPhase_calls (env : Env) (st : St) :
    ∀ c ∈ (checkPhase env st).1, c.isControllerMutation = false := by
  intro c hc
  unfold checkPhase at hc
  split at hc
  · rcases embedded_check_compatibility_calls env st c hc with rfl | rfl <;> rfl
  · split at hc
    · rcases proxy_check_upgrade_required_calls env st c hc with rfl | rfl | rfl <;> rfl
    · split at hc
      · rcases List.mem_append.mp hc with hc | hc
        · rcases proxy_check_upgrade_required_calls env st c hc with rfl | rfl | rfl <;> rfl
        · rcases proxy_upload_and_check_compatibility_calls env c hc
            with rfl | rfl | rfl | rfl <;> rfl
      · rcases proxy_check_upgrade_required_calls env st c hc with rfl | rfl | rfl <;> rfl

/-- When the check phase concludes that no artifact requires an upgrade,
its trace is free even of proxy staging uploads. -/
theorem checkPhase_calls_noupgrade (env : Env) (tr : List Call) (st : St)
    (h : checkPhase env {} = (tr, .ok st))
    (hfw : st.firmware_upgrade_required = false)
    (hnv : st.nvsram_upgrade_required = false) :
    ∀ c ∈ tr, c.isMutation = false := by
  intro c hc
  unfold checkPhase at h
  split at h
  · have htr := congrArg Prod.fst h
    dsimp at htr
    rw [← htr] at hc
    rcases embedded_check_compatibility_calls env {} c hc with rfl | rfl <;> rfl
  · split at h
    · injection h with h1 h2
      cases h2
    · rename_i st1 hok
      split at h
      · rename_i hflags
        injection h with h1 h2
        split at h2
        · cases h2
        · injection h2 with h2
          subst h2
          rw [hfw, hnv] at hflags
          simp at hflags
      · injection h with h1 h2
        rw [← h1] at hc
        rcases proxy_check_upgrade_required_calls env {} c hc with rfl | rfl | rfl <;> rfl

/-- The upgrade phase is skipped whenever its entry condition is false. -/
theorem upgradePhase_skip (env : Env) (st : St)
    (h : ((st.firmware_upgrade_required || st.nvsram_upgrade_required) &&
      !env.check_mode) = false) :
    upgradePhase env st = ([], .ok st) := by
  unfold upgradePhase
  rw [h]
  simp

set_option maxRecDepth 2000 in
/-- C3: if the check phase concludes that neither artifact requires an
upgrade (both flags false in its resulting state and the initial status
check passed), the run exits with changed=false, upgrade_in_process=false
and a trace free of uploads and activations; and in check mode every run's
trace is free of controller uploads and activations (proxy staging uploads
can still occur, see the counterexample). -/
theorem C3_no_upgrade_or_check_mode :
    (∀ (env : Env) (tr : List Call) (st : St),
      (is_upgrade_in_progress env).2 = .ok false →
      checkPhase env {} = (tr, .ok st) →
      st.firmware_upgrade_required = false →
      st.nvsram_upgrade_required = false →
      (applyRun env).2 = .exited false false ∧
        ∀ c ∈ (applyRun env).1, c.isMutation = false) ∧
    (∀ env : Env, env.check_mode = true →
      ∀ c ∈ (applyRun env).1, c.isControllerMutation = false) := by
  constructor
  · intro env tr st hip hcp hfw hnv
    have hupg : upgradePhase env st = ([], .ok st) :=
      upgradePhase_skip env st (by rw [hfw, hnv]; rfl)
    have hin : st.upgrade_in_progress = false := checkPhase_state env tr st hcp
    have happ : applyRun env =
        ((is_upgrade_in_progress env).1 ++ tr, .exited false false) := by
      simp only [applyRun, hip, hcp, hupg, hfw, hnv, hin]
      simp
    rw [happ]
    refine ⟨rfl, ?_⟩
    intro c hc
    rcases List.mem_append.mp hc with hc | hc
    · rcases is_upgrade_in_progress_calls env c hc with rfl
      rfl
    · exact checkPhase_calls_noupgrade env tr st hcp hfw hnv c hc
  · intro env hcm c hc
    have h1 : ∀ c ∈ (is_upgrade_in_progress env).1,
        Call.isControllerMutation c = false := by
      intro c hc
      rcases is_upgrade_in_progress_calls env c hc with rfl
      rfl
    have h2 := checkPhase_calls env ({} : St)
    have hupg : ∀ st2 : St, (upgradePhase env st2).1 = [] := by
      intro st2
      unfold upgradePhase
      rw [hcm]
      simp
    unfold applyRun at hc
    dsimp only at hc
    split at hc
    · exact h1 c hc
    · split at hc
      · exact h1 c hc
      · split at hc
        · rcases List.mem_append.mp hc with hc | hc
          exacts [h1 c hc, h2 c hc]
        · rename_i st2 _
          split at hc
          all_goals
            (rw [hupg st2, List.append_nil] at hc
             rcases List.mem_append.mp hc with hc | hc
             exacts [h1 c hc, h2 c hc])

/-- A proxy check-mode run that requires a firmware upgrade: the bundle on
the system is 08.42.20.00, the supplied bundle 08.42.30.00 is absent from
the proxy repository. -/
def envC3 : Env :=
  { baseEnv with
    isProxy := true
    check_mode := true
    firmware := some bundleFile
    currentBundleDisplay := some "08.42.20.00"
    cfwFiles := some []
    fwCompatAttempts := [some [some ⟨false, some ["fw.dlp"]⟩]] }

set_option maxRecDepth 4000 in
/-- C3 counterexample: in check mode the run can report changed=true, and
its trace can contain an upload (the firmware is staged on the proxy
during the check phase), refuting both the changed=false and the
zero-upload-calls parts of the claim's check-mode disjunct. -/
theorem C3_counterexample :
    envC3.check_mode = true ∧
    (applyRun envC3).2 = .exited true false ∧
    Call.proxyUpload ∈ (applyRun envC3).1 := by decide

set_option maxRecDepth 4000 in
/-- Witness: the amended C3 at concrete inputs — an embedded run with no
artifacts (conjunct one), and the check-mode proxy run of the
counterexample environment (conjunct two). -/
theorem C3_witness :
    ((applyRun baseEnv).2 = .exited false false ∧
      ∀ c ∈ (applyRun baseEnv).1, c.isMutation = false) ∧
    (∀ c ∈ (applyRun envC3).1, c.isControllerMutation = false) :=
  ⟨C3_no_upgrade_or_check_mode.1 baseEnv [] {} (by decide) (by decide) rfl rfl,
   C3_no_upgrade_or_check_mode.2 envC3 rfl⟩


/-! ## C10: uploads and activations are gated on path presence -/

theorem embedded_upgrade_fw_call (env : Env) (st : St) (f : FwFile)
    (hf : env.firmware = some f) :
    Call.embFirmwareUpload ∈ (embedded_upgrade env st).1 := by
  unfold embedded_upgrade
  rw [hf]
  dsimp only
  split
  · split <;> simp
  · simp

theorem embedded_upgrade_nv_call (env : Env) (st : St) (f : FwFile)
    (hnv : env.nvsram = some f) :
    Call.embNvsramUpload ∈ (embedded_upgrade env st).1 := by
  unfold embedded_upgrade
  rw [hnv]
  dsimp only
  split
  · split <;> simp
  · simp

theorem proxy_upgrade_fw_part_call (env : Env) (st : St) (f : FwFile)
    (hf : env.firmware = some f) :
    Call.proxyFwActivate ∈ (proxy_upgrade_fw_part env st).1 := by
  unfold proxy_upgrade_fw_part
  rw [hf]
  dsimp only
  split
  · simp
  · split <;> simp

theorem proxy_upgrade_nv_part_call (env : Env) (st1 : St) (f : FwFile)
    (hnv : env.nvsram = some f) :
    Call.proxyNvsramActivate ∈ (proxy_upgrade_nv_part env st1).1 := by
  unfold proxy_upgrade_nv_part
  rw [hnv]
  dsimp only
  split
  · simp
  · split <;> simp

/-- C10: once the upgrade phase is entered (some artifact requires an
upgrade and check mode is off), the upload/activation request of each
artifact is issued exactly when its path was supplied — independently of
that artifact's own upgrade_required flag (no conjunct hypothesises it).
The embedded uploads are unconditional; the proxy nvsram activation
additionally needs the firmware part to have returned (the module fails
before reaching it otherwise). -/
theorem C10_upload_gated_on_path :
    ∀ (env : Env) (st : St),
      (st.firmware_upgrade_required || st.nvsram_upgrade_required) = true →
      env.check_mode = false →
      ((∀ f : FwFile, env.firmware = some f → env.isProxy = false →
          Call.embFirmwareUpload ∈ (upgradePhase env st).1) ∧
       (∀ f : FwFile, env.nvsram = some f → env.isProxy = false →
          Call.embNvsramUpload ∈ (upgradePhase env st).1) ∧
       (∀ f : FwFile, env.firmware = some f → env.isProxy = true →
          Call.proxyFwActivate ∈ (upgradePhase env st).1) ∧
       (∀ (f : FwFile) (st1 : St), env.nvsram = some f → env.isProxy = true →
          (proxy_upgrade_fw_part env st).2 = .ok st1 →
          Call.proxyNvsramActivate ∈ (upgradePhase env st).1)) := by
  intro env st hflags hcm
  have hup : upgradePhase env st =
      if !env.isProxy then embedded_upgrade env st else proxy_upgrade env st := by
    unfold upgradePhase
    rw [hflags, hcm]
    rfl
  refine ⟨?_, ?_, ?_, ?_⟩
  · intro f hf hpx
    rw [hup, hpx]
    simp only [Bool.not_false, if_true]
    exact embedded_upgrade_fw_call env st f hf
  · intro f hnv hpx
    rw [hup, hpx]
    simp only [Bool.not_false, if_true]
    exact embedded_upgrade_nv_call env st f hnv
  · intro f hf hpx
    rw [hup, hpx]
    simp only [Bool.not_true, Bool.false_eq_true, if_false]
    unfold proxy_upgrade
    split
    · exact proxy_upgrade_fw_part_call env st f hf
    · exact List.mem_append_left _ (proxy_upgrade_fw_part_call env st f hf)
  · intro f st1 hnv hpx hok
    rw [hup, hpx]
    simp only [Bool.not_true, Bool.false_eq_true, if_false]
    unfold proxy_upgrade
    split
    · rename_i s hs
      rw [hok] at hs
      cases hs
    · rename_i st2 hs
      exact List.mem_append_right _ (proxy_upgrade_nv_part_call env st2 f hnv)

/-- An embedded run with both artifacts supplied. -/
def envC10 : Env :=
  { baseEnv with firmware := some bundleFile, nvsram := some nvsramFile }

/-- A proxy run with both artifacts supplied. -/
def envC10p : Env :=
  { envC10 with isProxy := true }

/-- Witness: with only the firmware flagged (nvsram_upgrade_required is
false), the nvsram upload and activation are still issued. -/
theorem C10_witness :
    Call.embFirmwareUpload ∈
      (upgradePhase envC10 { firmware_upgrade_required := true }).1 ∧
    Call.embNvsramUpload ∈
      (upgradePhase envC10 { firmware_upgrade_required := true }).1 ∧
    Call.proxyFwActivate ∈
      (upgradePhase envC10p { firmware_upgrade_required := true }).1 ∧
    Call.proxyNvsramActivate ∈
      (upgradePhase envC10p { firmware_upgrade_required := true }).1 :=
  ⟨(C10_upload_gated_on_path envC10 _ (by decide) rfl).1 bundleFile rfl rfl,
   (C10_upload_gated_on_path envC10 _ (by decide) rfl).2.1 nvsramFile rfl rfl,
   (C10_upload_gated_on_path envC10p _ (by decide) rfl).2.2.1 bundleFile rfl rfl,
   (C10_upload_gated_on_path envC10p _ (by decide) rfl).2.2.2 nvsramFile
     { firmware_upgrade_required := true, upgrade_in_progress := true }
     rfl rfl (by decide)⟩

end Santricity
